import Mathlib

set_option maxRecDepth 10000

/-!
Verification of the iptableslb reconciliation controller and its chain-identity
codec, shallowly embedded from the Go sources (`controller.go`, `loadbalancer.go`,
`metrics.go`, the chain-id file and the health-check file).

Conventions of the embedding:
* Go byte / uint8 / uint16 / uint32 values are `Nat` with explicit `% 2^w`
  where overflow can occur; theorems carry range hypotheses where the Go type
  system guarantees ranges.
* Go strings are Lean `String`; all rule text handled by the program is ASCII,
  so Go's byte indexing coincides with character indexing.
* Fallible Go functions (`(T, error)`) become `Except String T`.
* The iptables driver (`github.com/coreos/go-iptables`, an external
  collaborator per the spec) is modelled as a state of two tables plus a
  failure schedule `F : List Nat`: the k-th primitive operation of a run
  fails iff `k ∈ F`, modelling transient iptables command failures.
-/

/-! ### Decimal rendering (Go `fmt` `%d` / `strconv.Itoa`) -/

/-- Fuel-driven digit renderer (structural recursion, so that it reduces in
the kernel); `natReprAux` instantiates the fuel so it never runs out. -/
def natReprGo : Nat → Nat → List Char
  | 0, _ => []
  | fuel + 1, n =>
    if n < 10 then [Char.ofNat (48 + n)]
    else natReprGo fuel (n / 10) ++ [Char.ofNat (48 + n % 10)]

/-- Decimal digit characters of a natural number, most significant first. -/
def natReprAux (n : Nat) : List Char := natReprGo (n + 1) n

theorem natReprGo_congr : ∀ n f₁ f₂, n < f₁ → n < f₂ → natReprGo f₁ n = natReprGo f₂ n := by
  intro n
  induction n using Nat.strong_induction_on with
  | _ n ih =>
    intro f₁ f₂ h₁ h₂
    match f₁, f₂ with
    | a + 1, b + 1 =>
      simp only [natReprGo]
      by_cases h : n < 10
      · simp [h]
      · simp only [h, if_false]
        have hd : n / 10 < n := Nat.div_lt_self (by omega) (by omega)
        rw [ih (n / 10) hd a b (by omega) (by omega)]

/-- The recursive unfolding of `natReprAux`. -/
theorem natReprAux_eq (n : Nat) :
    natReprAux n =
      if n < 10 then [Char.ofNat (48 + n)]
      else natReprAux (n / 10) ++ [Char.ofNat (48 + n % 10)] := by
  by_cases h : n < 10
  · simp [natReprAux, natReprGo, h]
  · have hd : n / 10 < n := Nat.div_lt_self (by omega) (by omega)
    simp only [natReprAux]
    rw [natReprGo]
    simp only [h, if_false]
    rw [natReprGo_congr (n / 10) n (n / 10 + 1) (by omega) (by omega)]

/-- Decimal rendering of a natural number (Go's `%d` on non-negative values). -/
def natRepr (n : Nat) : String := ⟨natReprAux n⟩

/-- Decimal rendering of an integer (Go's `%d`). -/
def intRepr (i : Int) : String :=
  if i < 0 then "-" ++ natRepr i.natAbs else natRepr i.natAbs

/-- Is this character an ASCII decimal digit? -/
def isDigitChar (c : Char) : Bool := 48 ≤ c.toNat && c.toNat ≤ 57

/-- Accumulating decimal parser over characters; `none` on a non-digit. -/
def parseDigitsAux : List Char → Nat → Option Nat
  | [], acc => some acc
  | c :: cs, acc =>
    if isDigitChar c then parseDigitsAux cs (acc * 10 + (c.toNat - 48))
    else none

/-- Go `strconv.Atoi`.  Sign handling follows Go; the 64-bit range check is not
modelled (no claim depends on it: inputs past the range produce an error in Go
and an out-of-range value here, and every use site range-checks or wraps). -/
def goAtoi (s : String) : Except String Int :=
  let bad : Except String Int :=
    .error ("strconv.Atoi: parsing \"" ++ s ++ "\": invalid syntax")
  let core : List Char × Bool :=
    match s.data with
    | '+' :: rest => (rest, false)
    | '-' :: rest => (rest, true)
    | other => (other, false)
  if core.1 = [] then bad
  else
    match parseDigitsAux core.1 0 with
    | some v => .ok (if core.2 then -(v : Int) else (v : Int))
    | none => bad

/-! ### Go string helpers (`strings.Split` with one-character separator,
`strings.Index`, `strings.ReplaceAll`, `strings.Join`) -/

/-- Split on a separator character, keeping empty fields (Go `strings.Split`
with a one-character separator). -/
def splitCharAux (sep : Char) : List Char → List Char → List (List Char)
  | [], acc => [acc.reverse]
  | c :: cs, acc =>
    if c = sep then acc.reverse :: splitCharAux sep cs []
    else splitCharAux sep cs (c :: acc)

/-- Go `strings.Split(s, sep)` for a one-character separator `sep`. -/
def goSplitChar (sep : Char) (s : String) : List String :=
  (splitCharAux sep s.data []).map (fun l => ⟨l⟩)

/-- First index at which `pat` occurs in `l`, if any (Go `strings.Index`). -/
def findSub [DecidableEq α] (pat : List α) : List α → Option Nat
  | [] => if pat = [] then some 0 else none
  | c :: rest =>
    if pat.isPrefixOf (c :: rest) then some 0
    else (findSub pat rest).map (· + 1)

/-- Go `strings.Index(s, sub) < 0` is `¬ goContains s sub`. -/
def goContains (s sub : String) : Bool := (findSub sub.data s.data).isSome

/-- Go `strings.ReplaceAll` restricted to a non-empty pattern (every use site
passes a pattern ending in `"/32"`, hence non-empty; Go's empty-pattern
behaviour is not modelled). -/
def replaceAllAux (pat rep : List Char) : Nat → List Char → List Char
  | 0, l => l
  | _ + 1, [] => []
  | fuel + 1, c :: rest =>
    if pat ≠ [] ∧ pat.isPrefixOf (c :: rest) then
      rep ++ replaceAllAux pat rep fuel ((c :: rest).drop pat.length)
    else c :: replaceAllAux pat rep fuel rest

/-- Go `strings.ReplaceAll(s, pat, rep)` (non-empty `pat`; the fuel equals the
haystack length, which bounds the recursion depth). -/
def goReplaceAll (s pat rep : String) : String :=
  ⟨replaceAllAux pat.data rep.data s.data.length s.data⟩

/-- Go `strings.Join` / building a rule string back from arguments. -/
def goJoin (sep : String) (parts : List String) : String :=
  String.intercalate sep parts

/-! ### 32-bit modular arithmetic -/

/-- Reduction to 32 bits. -/
def u32 (n : Nat) : Nat := n % 4294967296

/-- Left-rotation of a 32-bit value (`x < 2^32` at every call site). -/
def rotl32 (x r : Nat) : Nat := u32 (x * 2 ^ r + x / 2 ^ (32 - r))

/-- Big-endian 16-bit read (`encoding/binary.BigEndian.Uint16`). -/
def u16BE (b0 b1 : Nat) : Nat := b0 * 256 + b1

/-- Big-endian 32-bit read (`encoding/binary.BigEndian.Uint32`). -/
def u32BE (b0 b1 b2 b3 : Nat) : Nat := ((b0 * 256 + b1) * 256 + b2) * 256 + b3

/-- Bytes of a string (the program only hashes ASCII rule text, where Go's
UTF-8 bytes coincide with code points). -/
def strBytes (s : String) : List Nat := s.data.map Char.toNat

/-! ### Pearson hash

Modelled from the spec: the repository file defining `PearsonHash` is not under
`src/` (only its callers in the chain-id file are).  The spec describes it as
"a deterministic byte-at-a-time permutation-table hash producing one byte"
(§4.1); the permutation table and the zero initial value are fixed by the
repository's own golden test (`chainid_test.go` expects
`PearsonHash [2, 192, 168, 42, 69, 5, 57] = 239`), which this table — the
classic published Pearson permutation table — reproduces, see
`pearson_golden` below. -/

def pearsonTable : List Nat :=
  [98, 6, 85, 150, 36, 23, 112, 164, 135, 207, 169, 5, 26, 64, 165, 219,
   61, 20, 68, 89, 130, 63, 52, 102, 24, 229, 132, 245, 80, 216, 195, 115,
   90, 168, 156, 203, 177, 120, 2, 190, 188, 7, 100, 185, 174, 243, 162, 10,
   237, 18, 253, 225, 8, 208, 172, 244, 255, 126, 101, 79, 145, 235, 228, 121,
   123, 251, 67, 250, 161, 0, 107, 97, 241, 111, 181, 82, 249, 33, 69, 55,
   59, 153, 29, 9, 213, 167, 84, 93, 30, 46, 94, 75, 151, 114, 73, 222,
   197, 96, 210, 45, 16, 227, 248, 202, 51, 152, 252, 125, 81, 206, 215, 186,
   39, 158, 178, 187, 131, 136, 1, 49, 50, 17, 141, 91, 47, 129, 60, 99,
   154, 35, 86, 171, 105, 34, 38, 200, 147, 58, 77, 118, 173, 246, 76, 254,
   133, 232, 196, 144, 198, 124, 53, 4, 108, 74, 223, 234, 134, 230, 157, 139,
   189, 205, 199, 128, 176, 19, 211, 236, 127, 192, 231, 70, 233, 88, 146, 44,
   183, 201, 22, 83, 13, 214, 116, 109, 159, 32, 95, 226, 140, 220, 57, 12,
   221, 31, 209, 182, 143, 92, 149, 184, 148, 62, 113, 65, 37, 27, 106, 166,
   3, 14, 204, 72, 21, 41, 56, 66, 28, 193, 40, 217, 25, 54, 179, 117,
   238, 87, 240, 155, 180, 170, 242, 212, 191, 163, 78, 218, 137, 194, 175, 110,
   43, 119, 224, 71, 122, 142, 42, 160, 104, 48, 247, 103, 15, 11, 138, 239]

/-- Inverse of `pearsonTable` (used only to certify that the table is a
permutation of `0..255`). -/
def pearsonTableInv : List Nat :=
  [69, 118, 38, 208, 151, 11, 1, 41, 52, 83, 47, 253, 191, 180, 209, 252,
   100, 121, 49, 165, 17, 212, 178, 5, 24, 220, 12, 205, 216, 82, 88, 193,
   185, 77, 133, 129, 4, 204, 134, 112, 218, 213, 246, 240, 175, 99, 89, 124,
   249, 119, 120, 104, 22, 150, 221, 79, 214, 190, 137, 80, 126, 16, 201, 21,
   13, 203, 215, 66, 18, 78, 171, 243, 211, 94, 153, 91, 142, 138, 234, 59,
   28, 108, 75, 179, 86, 2, 130, 225, 173, 19, 32, 123, 197, 87, 90, 186,
   97, 71, 0, 127, 42, 58, 23, 251, 248, 132, 206, 70, 152, 183, 239, 73,
   6, 202, 93, 31, 182, 223, 139, 241, 37, 63, 244, 64, 149, 107, 57, 168,
   163, 125, 20, 116, 26, 144, 156, 8, 117, 236, 254, 159, 188, 122, 245, 196,
   147, 60, 174, 136, 200, 198, 3, 92, 105, 81, 128, 227, 34, 158, 113, 184,
   247, 68, 46, 233, 7, 14, 207, 85, 33, 10, 229, 131, 54, 140, 44, 238,
   164, 36, 114, 222, 228, 74, 195, 176, 199, 43, 111, 115, 40, 160, 39, 232,
   169, 217, 237, 30, 146, 96, 148, 162, 135, 177, 103, 35, 210, 161, 109, 9,
   53, 194, 98, 166, 231, 84, 181, 110, 29, 219, 235, 15, 189, 192, 95, 154,
   242, 51, 187, 101, 62, 25, 157, 170, 145, 172, 155, 61, 167, 48, 224, 255,
   226, 72, 230, 45, 55, 27, 141, 250, 102, 76, 67, 65, 106, 50, 143, 56]

/-- One Pearson lookup. -/
def pearsonStep (h c : Nat) : Nat := pearsonTable.getD (h ^^^ c) 0

/-- Pearson fold from a running value. -/
def pearsonFold (h : Nat) : List Nat → Nat
  | [] => h
  | c :: cs => pearsonFold (pearsonStep h c) cs

/-- Modelled from the spec: `PearsonHash` (its defining file is missing from
`src/`), byte-at-a-time permutation-table hash starting from 0. -/
def PearsonHash (data : List Nat) : Nat := pearsonFold 0 data

/-- The modelled Pearson hash reproduces the repository's golden test value
(`chainid_test.go`: CRC byte 239 for protocol 2, ip 192.168.42.69, port 1337). -/
theorem pearson_golden : PearsonHash [2, 192, 168, 42, 69, 5, 57] = 239 := by decide

/-! ### xxHash32 (`github.com/pierrec/xxHash/xxHash32`, external collaborator;
spec §4.2 fixes it to "xxHash32 with seed 0xDEAD") -/

def xxPrime1 : Nat := 2654435761
def xxPrime2 : Nat := 2246822519
def xxPrime3 : Nat := 3266489917
def xxPrime4 : Nat := 668265263
def xxPrime5 : Nat := 374761393

/-- Little-endian 32-bit lane. -/
def laneLE (b0 b1 b2 b3 : Nat) : Nat := b0 + b1 * 256 + b2 * 65536 + b3 * 16777216

/-- One accumulator round. -/
def xxRound (acc lane : Nat) : Nat :=
  u32 (rotl32 (u32 (acc + u32 (lane * xxPrime2))) 13 * xxPrime1)

/-- Consume 16-byte stripes. -/
def xxStripes : List Nat → Nat × Nat × Nat × Nat → (Nat × Nat × Nat × Nat) × List Nat
  | b0 :: b1 :: b2 :: b3 :: b4 :: b5 :: b6 :: b7 ::
    b8 :: b9 :: b10 :: b11 :: b12 :: b13 :: b14 :: b15 :: rest, (a1, a2, a3, a4) =>
      xxStripes rest
        (xxRound a1 (laneLE b0 b1 b2 b3), xxRound a2 (laneLE b4 b5 b6 b7),
         xxRound a3 (laneLE b8 b9 b10 b11), xxRound a4 (laneLE b12 b13 b14 b15))
  | l, accs => (accs, l)

/-- Consume remaining 4-byte words, then single bytes. -/
def xxTail1 : Nat → List Nat → Nat
  | h, [] => h
  | h, b :: rest => xxTail1 (u32 (rotl32 (u32 (h + u32 (b * xxPrime5))) 11 * xxPrime1)) rest

def xxTail4 : Nat → List Nat → Nat
  | h, b0 :: b1 :: b2 :: b3 :: rest =>
      xxTail4 (u32 (rotl32 (u32 (h + u32 (laneLE b0 b1 b2 b3 * xxPrime3))) 17 * xxPrime4)) rest
  | h, rest => xxTail1 h rest

/-- Final avalanche. -/
def xxAvalanche (h : Nat) : Nat :=
  let h1 := h ^^^ (h / 2 ^ 15)
  let h2 := u32 (h1 * xxPrime2)
  let h3 := h2 ^^^ (h2 / 2 ^ 13)
  let h4 := u32 (h3 * xxPrime3)
  h4 ^^^ (h4 / 2 ^ 16)

/-- xxHash32 of a byte sequence with the given seed. -/
def xxh32 (seed : Nat) (data : List Nat) : Nat :=
  let n := data.length
  if 16 ≤ n then
    let start := (u32 (seed + xxPrime1 + xxPrime2), u32 (seed + xxPrime2),
                  u32 seed, u32 (seed + 4294967296 - u32 xxPrime1))
    let sr := xxStripes data start
    let h0 := u32 (rotl32 sr.1.1 1 + rotl32 sr.1.2.1 7 + rotl32 sr.1.2.2.1 12 +
                   rotl32 sr.1.2.2.2 18)
    xxAvalanche (xxTail4 (u32 (h0 + n)) sr.2)
  else
    xxAvalanche (xxTail4 (u32 (u32 (seed + xxPrime5) + n)) data)

/-- Reference vector: xxHash32 of the empty input with seed 0. -/
theorem xxh32_vec_empty : xxh32 0 [] = 0x02CC5D05 := by decide

/-- Reference vector: xxHash32 of "abc" with seed 0. -/
theorem xxh32_vec_abc : xxh32 0 (strBytes "abc") = 0x32D153FF := by decide

/-- Reference vector: a 39-byte input exercising the stripe loop. -/
theorem xxh32_vec_long :
    xxh32 0 (strBytes "Nobody inspects the spammish repetition") = 0xE2293B2F := by decide

/-! ### Standard base64 (`encoding/base64.StdEncoding`, standard library
collaborator).

Encoding is the standard alphabet with `=` padding.  Decoding models Go's
default (non-strict) decoder on newline-free input: complete 4-character
quanta, padding only in the final quantum, non-zero trailing padding bits
ignored. -/

def b64Alphabet : List Char :=
  "ABCDEFGHIJKLMNOPQRSTUVWXYZabcdefghijklmnopqrstuvwxyz0123456789+/".data

/-- The character for a 6-bit value. -/
def b64Chr (v : Nat) : Char := b64Alphabet.getD v 'A'

/-- The 6-bit value of an alphabet character, if any. -/
def b64Val (c : Char) : Option Nat := b64Alphabet.findIdx? (· = c)

/-- Encode bytes to base64 characters. -/
def b64EncodeAux : List Nat → List Char
  | b1 :: b2 :: b3 :: rest =>
      b64Chr (b1 / 4) :: b64Chr (b1 % 4 * 16 + b2 / 16) ::
      b64Chr (b2 % 16 * 4 + b3 / 64) :: b64Chr (b3 % 64) :: b64EncodeAux rest
  | [b1, b2] => [b64Chr (b1 / 4), b64Chr (b1 % 4 * 16 + b2 / 16), b64Chr (b2 % 16 * 4), '=']
  | [b1] => [b64Chr (b1 / 4), b64Chr (b1 % 4 * 16), '=', '=']
  | [] => []

/-- Go `base64.StdEncoding.EncodeToString`. -/
def b64Encode (bytes : List Nat) : String := ⟨b64EncodeAux bytes⟩

/-- Decode base64 characters (complete quanta; padding only at the end). -/
def b64DecodeAux : List Char → Option (List Nat)
  | [] => some []
  | c1 :: c2 :: c3 :: c4 :: rest =>
      match b64Val c1, b64Val c2 with
      | some v1, some v2 =>
        if c3 = '=' then
          if c4 = '=' ∧ rest = [] then some [v1 * 4 + v2 / 16] else none
        else
          match b64Val c3 with
          | some v3 =>
            if c4 = '=' then
              if rest = [] then some [v1 * 4 + v2 / 16, v2 % 16 * 16 + v3 / 4] else none
            else
              match b64Val c4 with
              | some v4 =>
                match b64DecodeAux rest with
                | some bs => some ((v1 * 4 + v2 / 16) :: (v2 % 16 * 16 + v3 / 4) ::
                                   (v3 % 4 * 64 + v4) :: bs)
                | none => none
              | none => none
          | none => none
      | _, _ => none
  | _ => none

/-- Go `base64.StdEncoding.DecodeString` (on newline-free input). -/
def b64Decode (s : String) : Option (List Nat) := b64DecodeAux s.data

/-! ### Network data model (`metrics.go`: `Protocol`, `Endpoint`,
`TryParseEndpoint`, `TryParseEndpoints`; `net.IP` restricted to IPv4) -/

/-- A parsed IPv4 address (Go `net.IP` in 4-byte form; the program is
IPv4-only per the spec's non-goals). -/
structure IPv4 where
  b0 : Nat
  b1 : Nat
  b2 : Nat
  b3 : Nat
deriving DecidableEq, Repr

/-- Dotted-quad rendering (Go `net.IP.String` on an IPv4 value). -/
def IPv4.render (ip : IPv4) : String :=
  natRepr ip.b0 ++ "." ++ natRepr ip.b1 ++ "." ++ natRepr ip.b2 ++ "." ++ natRepr ip.b3

/-- Go `net.IP.String`, where `none` is the nil IP (renders as `<nil>`). -/
def optIPRender : Option IPv4 → String
  | some ip => ip.render
  | none => "<nil>"

/-- One dotted-quad field: digits only, value at most 255, no leading zero
(Go `net.ParseIP`'s IPv4 field rule). -/
def parseIPv4Field (cs : List Char) : Option Nat :=
  if cs = [] then none
  else if cs.all isDigitChar ∧ (cs.length = 1 ∨ cs.headD 'A' ≠ '0') then
    match parseDigitsAux cs 0 with
    | some v => if v ≤ 255 then some v else none
    | none => none
  else none

/-- Go `net.ParseIP(s).To4()` modelled for dotted-quad IPv4 text: `none` both
when `ParseIP` fails and on non-IPv4 (e.g. IPv6) input, which the program
treats the same way everywhere it matters for the claims. -/
def goParseIPv4 (s : String) : Option IPv4 :=
  match (goSplitChar '.' s).map (fun f => parseIPv4Field f.data) with
  | [some a, some b, some c, some d] => some ⟨a, b, c, d⟩
  | _ => none

/-- Go `uint16(x)` on an `int` value. -/
def toU16 (i : Int) : Nat := (i % 65536).toNat

/-- An `Endpoint` (ip, port) pair.  The ip is optional because Go's
`TryParseEndpoint` stores the possibly-nil result of `ParseIP(...).To4()`
without checking it. -/
structure Endpoint where
  ip : Option IPv4
  port : Nat
deriving DecidableEq, Repr

/-- Go `Endpoint.String()`: `"ip:port"`. -/
def Endpoint.render (e : Endpoint) : String := optIPRender e.ip ++ ":" ++ natRepr e.port

instance : Inhabited Endpoint := ⟨⟨none, 0⟩⟩

/-- Go `TryParseEndpoint` (`metrics.go`): split on `:`, parse the port; a nil
IP is not an error. -/
def TryParseEndpoint (str : String) : Except String Endpoint :=
  match goSplitChar ':' str with
  | [ipStr, portStr] =>
    match goAtoi portStr with
    | .error e => .error ("couldnt parse port, see: " ++ e)
    | .ok port => .ok ⟨goParseIPv4 ipStr, toU16 port⟩
  | _ => .error ("expected ip:port but got `" ++ str ++ "`")

/-- Loop body of Go `TryParseEndpoints` (`metrics.go`), one comma-separated
part per step, accumulating endpoints; any error aborts the whole parse. -/
def tryParseEndpointsLoop : List String → List Endpoint → Except String (List Endpoint)
  | [], endpoints => .ok endpoints
  | p :: parts, endpoints =>
    match goSplitChar ':' p with
    | [ipPart, portPart] =>
      match goAtoi portPart with
      | .error e =>
          .error ("couldn't parse port `" ++ portPart ++ "` in `" ++ p ++ "`, see: " ++ e)
      | .ok port =>
        let rangeParts := goSplitChar '-' ipPart
        if 2 < rangeParts.length then
          .error ("expected ip or ip range but got `" ++ p ++ "`")
        else
          match goParseIPv4 (rangeParts.headD "") with
          | none => .error ("couldn't parse `" ++ p ++ "` as ip")
          | some ip =>
            let endpoints1 := endpoints ++ [⟨some ip, toU16 port⟩]
            if rangeParts.length ≠ 2 then
              tryParseEndpointsLoop parts endpoints1
            else
              match goAtoi (rangeParts.getD 1 "") with
              | .error e =>
                  .error ("couldn't parse max part of ip range `" ++ p ++ "`, see: " ++ e)
              | .ok mx =>
                if (ip.b3 : Int) > mx then
                  .error ("lower address specified in range `" ++ p ++
                          "` is bigger than upper")
                else if (ip.b3 : Int) = mx then
                  tryParseEndpointsLoop parts endpoints1
                else if mx > 255 then
                  .error ("invalid maximum ip for range `" ++ p ++ "` given")
                else
                  tryParseEndpointsLoop parts
                    (endpoints1 ++ (List.range' (ip.b3 + 1) (mx.toNat - ip.b3)).map
                      (fun i => ⟨some ⟨ip.b0, ip.b1, ip.b2, i⟩, toU16 port⟩))
    | _ => .error ("expected ip:port or ip-max:port but got `" ++ p ++ "`")

/-- Go `TryParseEndpoints` (`metrics.go`). -/
def TryParseEndpoints (ipStr : String) : Except String (List Endpoint) :=
  tryParseEndpointsLoop (goSplitChar ',' ipStr) []

/-- Go `Protocol.String()` (`metrics.go`; `Protocol` is a byte: 1 = tcp,
2 = udp, everything else unknown). -/
def protoString (p : Nat) : String :=
  if p = 1 then "tcp" else if p = 2 then "udp" else "unknown"

/-! ### Chain identity codec (the chain-id source file) -/

/-- `ChainState` is a byte: 0 = Creating, 1 = Created. -/
def ChainCreating : Nat := 0

def ChainCreated : Nat := 1

/-- The `"LB$-"` marker in front of every encoded chain name (Go constant
`chainIDPrefix`; renamed here to avoid a reserved suffix). -/
def chainIDMark : String := "LB$-"

/-- `ChainID`: the identity embedded in a chain name.  Byte-valued fields are
`Nat` (byte / uint16 / uint32 ranges appear as theorem hypotheses). -/
structure ChainID where
  CRC : Nat
  Protocol : Nat
  IP : IPv4
  Port : Nat
  LastUpdate : Nat
  State : Nat
  ContentHash : Nat
deriving DecidableEq, Repr

instance : Inhabited ChainID := ⟨⟨0, 0, ⟨0, 0, 0, 0⟩, 0, 0, 0, 0⟩⟩

/-- The 7 CRC-covered bytes `[proto, ip0..ip3, port_hi, port_lo]`. -/
def crcBytes (protocol : Nat) (ip : IPv4) (port : Nat) : List Nat :=
  [protocol, ip.b0, ip.b1, ip.b2, ip.b3, port / 256 % 256, port % 256]

/-- Go `NewChainID`. -/
def NewChainID (protocol : Nat) (ip : IPv4) (port lastUpdate state contentHash : Nat) :
    ChainID :=
  { CRC := PearsonHash (crcBytes protocol ip port)
    Protocol := protocol
    IP := ip
    Port := port
    LastUpdate := lastUpdate
    State := state
    ContentHash := contentHash }

/-- The 17-byte payload written by Go `ChainID.String()`. -/
def ChainID.payload (c : ChainID) : List Nat :=
  [c.CRC, c.Protocol, c.IP.b0, c.IP.b1, c.IP.b2, c.IP.b3,
   c.Port / 256 % 256, c.Port % 256,
   c.LastUpdate / 16777216 % 256, c.LastUpdate / 65536 % 256,
   c.LastUpdate / 256 % 256, c.LastUpdate % 256,
   c.State,
   c.ContentHash / 16777216 % 256, c.ContentHash / 65536 % 256,
   c.ContentHash / 256 % 256, c.ContentHash % 256]

/-- Go `ChainID.String()`: the full chain name (renamed: `ChainID.String`
would shadow the `String` type inside the `ChainID` namespace). -/
def ChainID.encodeName (c : ChainID) : String := chainIDMark ++ b64Encode c.payload

/-- Go `ChainID.AsLoadbalancerKey()`. -/
def ChainID.AsLoadbalancerKey (c : ChainID) : String :=
  protoString c.Protocol ++ "://" ++ c.IP.render ++ ":" ++ natRepr c.Port

/-- Byte `i` of the decoded payload as Go reads it.  Go's
`base64.StdEncoding.DecodeString` returns a slice of length `n` over a
zero-initialised buffer of capacity `DecodedLen(24) = 18`, and
`TryParseChainID` slices `data[13:17]` — legal up to the capacity — so bytes
past the decoded length read as 0.  `List.getD` reproduces exactly that. -/
def payloadByte (data : List Nat) (i : Nat) : Nat := data.getD i 0

/-- Go `TryParseChainID`. -/
def TryParseChainID (chain : String) : Except String ChainID :=
  if chain.length ≠ 28 then
    .error ("chain `" ++ chain ++ "` has invalid length, got " ++ natRepr chain.length ++
            " expected 28")
  else if ¬ (chain.data.take 4 = chainIDMark.data) then
    .error ("chain `" ++ chain ++ "` doens't start with prefix `" ++ chainIDMark ++ "`")
  else
    match b64Decode ⟨chain.data.drop 4⟩ with
    | none => .error ("chain `" ++ chain ++ "` isn't valid base64")
    | some data =>
      let id : ChainID :=
        { CRC := payloadByte data 0
          Protocol := payloadByte data 1
          IP := ⟨payloadByte data 2, payloadByte data 3, payloadByte data 4, payloadByte data 5⟩
          Port := u16BE (payloadByte data 6) (payloadByte data 7)
          LastUpdate := u32BE (payloadByte data 8) (payloadByte data 9)
                        (payloadByte data 10) (payloadByte data 11)
          State := payloadByte data 12
          ContentHash := u32BE (payloadByte data 13) (payloadByte data 14)
                         (payloadByte data 15) (payloadByte data 16) }
      let checksum := PearsonHash ((data.drop 1).take 7)
      if checksum ≠ id.CRC then
        .error ("chain `" ++ chain ++ "` has invalid CRC, got " ++ natRepr id.CRC ++
                " expected " ++ natRepr checksum)
      else
        .ok id

instance {ε α : Type} [DecidableEq ε] [DecidableEq α] : DecidableEq (Except ε α) := fun
  | .ok a, .ok b => if h : a = b then .isTrue (by rw [h]) else .isFalse (by simp [h])
  | .error a, .error b => if h : a = b then .isTrue (by rw [h]) else .isFalse (by simp [h])
  | .ok _, .error _ => .isFalse (by simp)
  | .error _, .ok _ => .isFalse (by simp)

/-- The codec reproduces the repository's golden chain name
(`chainid_test.go`): protocol udp, ip 192.168.42.69, port 1337,
lastUpdate 4294967295, state Created, contentHash 42133742. -/
theorem chainID_golden_name :
    (NewChainID 2 ⟨192, 168, 42, 69⟩ 1337 4294967295 ChainCreated 42133742).encodeName =
      "LB$-7wLAqCpFBTn/////AQKC6O4=" := by decide

/-- The golden checksum-mismatch error from `chainid_test.go` (CRC byte
overwritten with 0x42). -/
theorem chainID_golden_crc_error :
    TryParseChainID "LB$-QgLAqCpFBTn/////AQKC6O4=" =
      .error "chain `LB$-QgLAqCpFBTn/////AQKC6O4=` has invalid CRC, got 66 expected 239" := by
  decide

/-! ### Loadbalancer (`loadbalancer.go`) -/

/-- A `Loadbalancer` record.  `lastUpdate` is the Go uint32 Unix-seconds
generation; "now" values are threaded explicitly (`time.Now` is ambient in
Go), reduced mod 2^32 where written. -/
structure Loadbalancer where
  LastUpdate : Nat
  Protocol : Nat
  Input : Endpoint
  Outputs : List Endpoint
deriving DecidableEq, Repr

/-- Go `GetLoadbalancerKey`. -/
def GetLoadbalancerKey (proto : Nat) (input : Endpoint) : String :=
  protoString proto ++ "://" ++ input.render

/-- Go `Loadbalancer.Key()`. -/
def Loadbalancer.Key (lb : Loadbalancer) : String := GetLoadbalancerKey lb.Protocol lb.Input

/-- Go `Loadbalancer.MarkUpdated()`: sets `LastUpdate` to now (uint32 cast of
Unix seconds). -/
def Loadbalancer.MarkUpdated (lb : Loadbalancer) (now : Nat) : Loadbalancer :=
  { lb with LastUpdate := now % 4294967296 }

/-- Go `NewLoadbalancer`. -/
def NewLoadbalancer (proto : Nat) (input : Endpoint) (outputs : List Endpoint) (now : Nat) :
    Loadbalancer :=
  Loadbalancer.MarkUpdated ⟨0, proto, input, outputs⟩ now

/-- Go `Loadbalancer.GetChainID(state, contentHash)`.  Go would dereference a
nil input IP here (panic); the model totalises with `0.0.0.0`, and every
theorem that touches this path assumes a present IPv4 input. -/
def Loadbalancer.GetChainID (lb : Loadbalancer) (state contentHash : Nat) : ChainID :=
  NewChainID lb.Protocol (lb.Input.ip.getD ⟨0, 0, 0, 0⟩) lb.Input.port lb.LastUpdate
    state contentHash

/-! ### Health check (the health-check source file) -/

/-- `defaultRetention = time.Second`, in nanoseconds (Go `time.Duration`). -/
def defaultRetention : Nat := 1000000000

/-- The mutable state of a `HealthCheck` (ip/port/provider omitted: the
provider is an interface whose verdict is passed in as data). -/
structure HealthCheck where
  Healthy : Bool
  LastTimeHealthy : Nat
  LastCheck : Nat
  LastMessage : String
  Retention : Nat
  MaxRetention : Nat
deriving DecidableEq, Repr

/-- Go `HealthCheck.CheckHealth()`.  The provider's answer is `(msg,
isHealthy)`; `jitter` is the nanosecond value of Go's
`time.Duration((rand.Float64()/2)*float64(time.Second))`, so `jitter <
500000000`; `now` is the current time in nanoseconds. -/
def CheckHealth (h : HealthCheck) (msg : String) (isHealthy : Bool) (jitter now : Nat) :
    HealthCheck :=
  let h1 := { h with LastMessage := msg, Healthy := isHealthy }
  let retention := defaultRetention + jitter
  let h2 := { h1 with LastCheck := now }
  if h2.Healthy then
    { h2 with LastTimeHealthy := h2.LastCheck, Retention := retention }
  else if h2.Retention < h2.MaxRetention then
    { h2 with Retention := h2.Retention + retention }
  else
    h2

/-! ### The iptables driver model (`github.com/coreos/go-iptables`,
external collaborator)

A table is an insertion-ordered association list from chain name to the list
of appended rule specifications.  `List` on an existing chain reports the
`-N`/`-A` lines the way the real driver does.  The failure schedule
`F : List Nat` injects a failure into the k-th primitive operation of a run
(counted by `Env.cnt`), modelling transient iptables command failures; `F =
[]` is a failure-free driver.  Every attempted operation is recorded in
`Env.trace`. -/

/-- Go constants `NATTable = "nat"` and `FilterTable = "filter"`. -/
inductive Table
  | nat
  | filter
deriving DecidableEq, Repr

/-- One primitive driver operation (spec §1: `listChains`, `newChain`,
`renameChain`, `deleteChain`, `clearChain`, `listRules`, `appendRule`,
`deleteRule`). -/
inductive Op
  | listChains (t : Table)
  | listRules (t : Table) (chain : String)
  | newChain (t : Table) (chain : String)
  | appendRule (t : Table) (chain : String) (args : List String)
  | deleteRule (t : Table) (chain : String) (args : List String)
  | clearChain (t : Table) (chain : String)
  | deleteChain (t : Table) (chain : String)
  | renameChain (t : Table) (a b : String)
deriving DecidableEq, Repr

/-- Driver state: the two tables, the operation counter and the trace. -/
structure Env where
  nt : List (String × List String)
  ft : List (String × List String)
  cnt : Nat
  trace : List Op
deriving DecidableEq, Repr

def Env.table (e : Env) : Table → List (String × List String)
  | .nat => e.nt
  | .filter => e.ft

def Env.setTable (e : Env) : Table → List (String × List String) → Env
  | .nat, tbl => { e with nt := tbl }
  | .filter, tbl => { e with ft := tbl }

/-- Record an attempted operation. -/
def Env.emit (e : Env) (o : Op) : Env := { e with cnt := e.cnt + 1, trace := e.trace ++ [o] }

/-- Does the next operation fail under schedule `F`? -/
def fails (F : List Nat) (e : Env) : Bool := F.contains e.cnt

def tblHas (tbl : List (String × List String)) (c : String) : Bool := tbl.any (·.1 = c)

def tblGet (tbl : List (String × List String)) (c : String) : Option (List String) :=
  (tbl.find? (·.1 = c)).map (·.2)

def tblSet (tbl : List (String × List String)) (c : String) (rules : List String) :
    List (String × List String) :=
  tbl.map (fun p => if p.1 = c then (p.1, rules) else p)

def tblDel (tbl : List (String × List String)) (c : String) : List (String × List String) :=
  tbl.filter (fun p => ¬ (p.1 = c))

def tblRename (tbl : List (String × List String)) (a b : String) :
    List (String × List String) :=
  tbl.map (fun p => if p.1 = a then (b, p.2) else p)

/-- `ListChains`: the chain names of a table, in order. -/
def iptListChains (F : List Nat) (t : Table) (e : Env) : Except String (List String) × Env :=
  let e1 := e.emit (.listChains t)
  if fails F e then (.error "iptables command failed", e1)
  else (.ok ((e.table t).map (·.1)), e1)

/-- `List`: `-N`/`-A` lines of one chain; fails on a missing chain. -/
def iptList (F : List Nat) (t : Table) (c : String) (e : Env) :
    Except String (List String) × Env :=
  let e1 := e.emit (.listRules t c)
  if fails F e then (.error "iptables command failed", e1)
  else
    match tblGet (e.table t) c with
    | none => (.error "No chain/target/match by that name", e1)
    | some rules => (.ok (("-N " ++ c) :: rules.map (fun r => "-A " ++ c ++ " " ++ r)), e1)

/-- `NewChain`: fails if the chain already exists. -/
def iptNewChain (F : List Nat) (t : Table) (c : String) (e : Env) :
    Except String Unit × Env :=
  let e1 := e.emit (.newChain t c)
  if fails F e then (.error "iptables command failed", e1)
  else if tblHas (e.table t) c then (.error "Chain already exists", e1)
  else (.ok (), e1.setTable t (e.table t ++ [(c, [])]))

/-- `Append`: appends the joined rule specification to an existing chain. -/
def iptAppend (F : List Nat) (t : Table) (c : String) (args : List String) (e : Env) :
    Except String Unit × Env :=
  let e1 := e.emit (.appendRule t c args)
  if fails F e then (.error "iptables command failed", e1)
  else
    match tblGet (e.table t) c with
    | none => (.error "No chain/target/match by that name", e1)
    | some rules => (.ok (), e1.setTable t (tblSet (e.table t) c (rules ++ [goJoin " " args])))

/-- `Delete`: removes the first rule equal to the joined specification. -/
def iptDelete (F : List Nat) (t : Table) (c : String) (args : List String) (e : Env) :
    Except String Unit × Env :=
  let e1 := e.emit (.deleteRule t c args)
  if fails F e then (.error "iptables command failed", e1)
  else
    match tblGet (e.table t) c with
    | none => (.error "No chain/target/match by that name", e1)
    | some rules =>
      if rules.contains (goJoin " " args) then
        (.ok (), e1.setTable t (tblSet (e.table t) c (rules.erase (goJoin " " args))))
      else (.error "Bad rule (does a matching rule exist in that chain?)", e1)

/-- `ClearChain`: flushes the chain, creating it if necessary (go-iptables
semantics). -/
def iptClearChain (F : List Nat) (t : Table) (c : String) (e : Env) :
    Except String Unit × Env :=
  let e1 := e.emit (.clearChain t c)
  if fails F e then (.error "iptables command failed", e1)
  else if tblHas (e.table t) c then (.ok (), e1.setTable t (tblSet (e.table t) c []))
  else (.ok (), e1.setTable t (e.table t ++ [(c, [])]))

/-- `DeleteChain`: fails on a missing or non-empty chain. -/
def iptDeleteChain (F : List Nat) (t : Table) (c : String) (e : Env) :
    Except String Unit × Env :=
  let e1 := e.emit (.deleteChain t c)
  if fails F e then (.error "iptables command failed", e1)
  else
    match tblGet (e.table t) c with
    | none => (.error "No chain/target/match by that name", e1)
    | some rules =>
      if rules.isEmpty then (.ok (), e1.setTable t (tblDel (e.table t) c))
      else (.error "Directory not empty", e1)

/-- `RenameChain`: fails if the old chain is missing or the new name taken.
(Real `iptables -E` also rewrites jump references; the controller only renames
chains nothing references yet, so that is not modelled.) -/
def iptRenameChain (F : List Nat) (t : Table) (a b : String) (e : Env) :
    Except String Unit × Env :=
  let e1 := e.emit (.renameChain t a b)
  if fails F e then (.error "iptables command failed", e1)
  else if ¬ tblHas (e.table t) a then (.error "No chain/target/match by that name", e1)
  else if tblHas (e.table t) b then (.error "File exists", e1)
  else (.ok (), e1.setTable t (tblRename (e.table t) a b))

/-! ### Controller registry (`controller.go`: fields and registry methods).

Go map iteration order is unspecified; the model determinises it to insertion
order of an association list.  No claim depends on the order. -/

def ContentHashSeed : Nat := 0xDEAD

def mainChainName : String := "iptableslb-prerouting"

def forwardChainName : String := "iptableslb-forward"

/-- Go map read `m[k]` over the association-list determinisation. -/
def alookup {β : Type} (m : List (String × β)) (k : String) : Option β :=
  (m.find? (·.1 = k)).map (·.2)

/-- Go map assignment `m[k] = v` (replace in place, or append a new entry). -/
def astore {β : Type} (m : List (String × β)) (k : String) (v : β) :
    List (String × β) :=
  if m.any (·.1 = k) then m.map (fun p => if p.1 = k then (k, v) else p)
  else m ++ [(k, v)]

theorem find_map_upd {β : Type} (k : String) (v : β) :
    ∀ m : List (String × β), m.any (·.1 = k) = true →
      (m.map (fun p => if p.1 = k then (k, v) else p)).find? (·.1 = k) = some (k, v) := by
  intro m
  induction m with
  | nil => simp
  | cons p rest ih =>
    intro hany
    by_cases hp1 : p.1 = k
    · simp only [List.map_cons, if_pos hp1]
      exact List.find?_cons_of_pos _ (by simp)
    · simp only [List.any_cons, Bool.or_eq_true, decide_eq_true_eq] at hany
      rcases hany with h | h

      · exact absurd h hp1
      · simp only [List.map_cons, if_neg hp1]
        rw [List.find?_cons_of_neg _ (by simpa using hp1)]
        exact ih (by simpa using h)

theorem find_append_single {β : Type} (k : String) (v : β) :
    ∀ m : List (String × β), m.any (·.1 = k) = false →
      (m ++ [(k, v)]).find? (·.1 = k) = some (k, v) := by
  intro m
  induction m with
  | nil => simp
  | cons p rest ih =>
    intro hany
    simp only [List.any_cons, Bool.or_eq_false_iff, decide_eq_false_iff_not] at hany
    rw [List.cons_append, List.find?_cons_of_neg _ (by simpa using hany.1)]
    exact ih (by simpa using hany.2)

/-- Reading back the key just stored yields the stored value. -/
theorem alookup_astore_self {β : Type} (m : List (String × β)) (k : String) (v : β) :
    alookup (astore m k v) k = some v := by
  unfold astore
  split
  · rename_i h
    unfold alookup
    rw [find_map_upd k v m h]
    rfl
  · rename_i h
    unfold alookup
    rw [find_append_single k v m (Bool.eq_false_iff.mpr h)]
    rfl

/-- Every entry of `astore m k v` is the stored pair or an original entry. -/
theorem mem_astore {β : Type} (m : List (String × β)) (k : String) (v : β) :
    ∀ x ∈ astore m k v, x = (k, v) ∨ x ∈ m := by
  intro x hx
  unfold astore at hx
  split at hx
  · rcases List.mem_map.mp hx with ⟨y, hy, hxy⟩
    by_cases hy1 : y.1 = k
    · simp only [if_pos hy1] at hxy
      exact Or.inl hxy.symm
    · simp only [if_neg hy1] at hxy
      exact Or.inr (hxy ▸ hy)
  · rcases List.mem_append.mp hx with h | h
    · exact Or.inr h
    · exact Or.inl (by simpa using h)

/-- Entries surviving a key-filter deletion were entries before. -/
theorem mem_filter_sub {β : Type} (m : List (String × β)) (q : String × β → Bool) :
    ∀ x ∈ m.filter q, x ∈ m := fun _ hx => (List.mem_filter.mp hx).1

/-- Prefix-stability of `take` under a `set` at or past the taken length. -/
theorem take_set_of_le {α : Type} (l : List α) (n : Nat) (a : α) (m : Nat) (h : m ≤ n) :
    (l.set n a).take m = l.take m := by
  apply List.ext_getElem?
  intro i
  simp only [List.getElem?_take]
  split
  · rename_i hi
    exact List.getElem?_set_ne (by omega)
  · rfl

/-- The registry component of the controller state. -/
structure Ctrl where
  loadbalancers : List (String × Loadbalancer)
deriving DecidableEq, Repr

def ctrlLookup (c : Ctrl) (k : String) : Option Loadbalancer :=
  alookup c.loadbalancers k

/-- Go map assignment `c.loadbalancers[k] = lb`. -/
def ctrlStore (c : Ctrl) (k : String) (lb : Loadbalancer) : Ctrl :=
  ⟨astore c.loadbalancers k lb⟩

/-- Go `Controller.UpsertLoadbalancer` at registry level (the value stored is
a struct copy; the slice-aliasing behaviour of that copy is modelled
separately below). -/
def UpsertLoadbalancer (c : Ctrl) (lb : Loadbalancer) (now : Nat) : Ctrl :=
  if lb.Outputs.length = 0 then ⟨c.loadbalancers.filter (fun p => ¬ (p.1 = lb.Key))⟩
  else ctrlStore c lb.Key (lb.MarkUpdated now)

/-- Go `Controller.DeleteLoadbalancer`. -/
def DeleteLoadbalancer (c : Ctrl) (lb : Loadbalancer) : Ctrl :=
  ⟨c.loadbalancers.filter (fun p => ¬ (p.1 = lb.Key))⟩

/-! ### Pure rule-text helpers (`controller.go`) -/

/-- Adjacent pairs `splitted[i-1] + " " + splitted[i]` for odd `i`
(`rulesContainRule`'s tuple construction). -/
def tuplesOf : List String → List String
  | a :: b :: rest => (a ++ " " ++ b) :: tuplesOf rest
  | _ => []

/-- Go `Controller.allStringsInString`. -/
def allStringsInString (all : List String) (str : String) : Bool :=
  all.all (fun s => goContains str s)

/-- Go `Controller.rulesContainRule`. -/
def rulesContainRule (rules : List String) (rule : String) : Bool :=
  rules.any (allStringsInString (tuplesOf (goSplitChar ' ' rule)))

/-- Loop of Go `Controller.stripNARules`: drop `-A`/`-N` tokens and their
argument, rejoin the rest with single spaces. -/
def stripNAAux : List String → Bool → String → String
  | [], _, acc => acc
  | r :: rest, skipArg, acc =>
    if r = "-A" ∨ r = "-N" then stripNAAux rest true acc
    else if skipArg then stripNAAux rest false acc
    else stripNAAux rest false (if acc ≠ "" then acc ++ " " ++ r else r)

def stripNARules (rule : String) : String := stripNAAux (goSplitChar ' ' rule) false ""

/-- Go `Controller.calculateHashForRules`: xxHash32 (seed `0xDEAD`) of the
concatenated stripped rule texts (streaming writes hash the concatenation). -/
def calculateHashForRules (rules : List String) : Nat :=
  xxh32 ContentHashSeed ((rules.map (fun r => strBytes (stripNARules r))).flatten)

/-- Go `Controller.getChainIDForMainChainRule`. -/
def getChainIDForMainChainRule (rule : String) : Except String ChainID :=
  match findSub " -j".data rule.data with
  | none => .error ("couldn't find jump target in rule `" ++ rule ++ "`")
  | some start =>
    if rule.data.length ≤ start + 4 then
      .error ("whooops, we failed hard trying to parse the rules in the main chain, couldnt parse `"
              ++ rule ++ "`")
    else
      let substr := rule.data.drop (start + 4)
      let ws := match findSub [' '] substr with
        | none => substr.length
        | some i => i
      TryParseChainID ⟨substr.take ws⟩

/-- Scan of Go `Controller.getDestinationFromRule`: the token after
`--to-destination` (when one follows), parsed as an endpoint. -/
def gdrLoop (rule : String) : List String → Except String Endpoint
  | a :: b :: rest =>
    if a = "--to-destination" then
      match TryParseEndpoint b with
      | .error err => .error ("couldn't parse endpoint from --to-destination arg, see: " ++ err)
      | .ok endpoint => .ok endpoint
    else gdrLoop rule (b :: rest)
  | _ => .error ("couldn't find --to-destination arg in rule `" ++ rule ++ "`")

def getDestinationFromRule (rule : String) : Except String Endpoint :=
  gdrLoop rule (goSplitChar ' ' rule)

/-- Argument scan of Go `Controller.getDestinationFromForwardRule`
(accumulates `sIP`, `dIP`, `sPort`, `dPort` over overlapping token pairs). -/
def gdfrLoop (rule : String) :
    List String → String × String × Int × Int → Except String (String × String × Int × Int)
  | a :: b :: rest, (sIP, dIP, sPort, dPort) =>
    let sIP1 := if a = "-s" then b else sIP
    let dIP1 := if a = "-d" then b else dIP
    if a = "--sport" then
      match goAtoi b with
      | .error err => .error ("couldn't atoi sPort in rule `" ++ rule ++ "`, see: " ++ err)
      | .ok v => gdfrLoop rule (b :: rest) (sIP1, dIP1, v, dPort)
    else if a = "--dport" then
      match goAtoi b with
      | .error err => .error ("couldn't atoi dPort in rule `" ++ rule ++ "`, see: " ++ err)
      | .ok v => gdfrLoop rule (b :: rest) (sIP1, dIP1, sPort, v)
    else gdfrLoop rule (b :: rest) (sIP1, dIP1, sPort, dPort)
  | _, acc => .ok acc

/-- The `getEndpoint` closure: strip a `/mask` suffix, parse the IP. -/
def mkFwdEndpoint (ip : String) (port : Int) : Endpoint :=
  let ip1 : String :=
    match findSub ['/'] ip.data.reverse with
    | some j => ⟨ip.data.take (ip.data.length - 1 - j)⟩
    | none => ip
  ⟨goParseIPv4 ip1, toU16 port⟩

/-- Go `Controller.getDestinationFromForwardRule`. -/
def getDestinationFromForwardRule (rule : String) : Except String Endpoint :=
  match gdfrLoop rule (goSplitChar ' ' rule) ("", "", 0, 0) with
  | .error e => .error e
  | .ok (sIP, dIP, sPort, dPort) =>
    if sIP ≠ "" ∧ dIP ≠ "" then .error ("broken rule `" ++ rule ++ "` got source and dest ip")
    else if sPort ≠ 0 ∧ dPort ≠ 0 then
      .error ("broken rule `" ++ rule ++ "` got source and dest port")
    else if sIP ≠ "" ∧ sPort ≠ 0 then .ok (mkFwdEndpoint sIP sPort)
    else if dIP ≠ "" ∧ dPort ≠ 0 then .ok (mkFwdEndpoint dIP dPort)
    else
      .error ("unknown rule `" ++ rule ++
              "` doesnt have source ip + source port or dest ip + dest port")

/-- Go `Controller.getRuleStringForMainChainEntryToChain`. -/
def getRuleStringForMainChainEntryToChain (chain : ChainID) : String :=
  "-p " ++ protoString chain.Protocol ++ " -d " ++ chain.IP.render ++ " --dport " ++
  natRepr chain.Port ++ " -j " ++ chain.encodeName

/-- Go `Controller.getSrcForwardRuleStringForEndpointAndProt`. -/
def getSrcForwardRuleStringForEndpointAndProt (endpoint : Endpoint) (prot : Nat) : String :=
  "-p " ++ protoString prot ++ " -s " ++ optIPRender endpoint.ip ++ " --sport " ++
  natRepr endpoint.port ++ " -j ACCEPT"

/-- Go `Controller.getDstForwardRuleStringForEndpointAndProt`. -/
def getDstForwardRuleStringForEndpointAndProt (endpoint : Endpoint) (prot : Nat) : String :=
  "-p " ++ protoString prot ++ " -d " ++ optIPRender endpoint.ip ++ " --dport " ++
  natRepr endpoint.port ++ " -j ACCEPT"

/-- Go `Controller.chainIDsContainID` (compares encoded names). -/
def chainIDsContainID (ids : List ChainID) (id : ChainID) : Bool :=
  ids.any (·.encodeName = id.encodeName)

/-- Go `Controller.findChainIDs`: the chains whose names parse. -/
def findChainIDs (chains : List String) : List ChainID :=
  chains.filterMap (fun chain => (TryParseChainID chain).toOption)

/-- Go `Controller.getChainIDsWithState`. -/
def getChainIDsWithState (chainIDs : List ChainID) (state : Nat) : List ChainID :=
  chainIDs.filter (·.State = state)

/-- Go `Controller.getLatestChainID` (fold from the zero `ChainID`; the Go
zero value has a nil IP, modelled as `0.0.0.0`). -/
def getLatestChainID (chainIDs : List ChainID) : ChainID :=
  chainIDs.foldl (fun latest cid => if cid.LastUpdate > latest.LastUpdate then cid else latest)
    default

/-- Append `v` to the entry of `k` (Go `m[key] = append(m[key], v)`). -/
def alistAppendChain (m : List (String × List ChainID)) (k : String) (v : ChainID) :
    List (String × List ChainID) :=
  if m.any (·.1 = k) then m.map (fun p => if p.1 = k then (p.1, p.2 ++ [v]) else p)
  else m ++ [(k, [v])]

/-- Go `Controller.mapLoadbalancerKeyToChainIDs`. -/
def mapLoadbalancerKeyToChainIDs (chainIDs : List ChainID) (c : Ctrl) :
    List (String × List ChainID) :=
  let m := chainIDs.foldl (fun m cid => alistAppendChain m cid.AsLoadbalancerKey cid) []
  c.loadbalancers.foldl
    (fun m kv => if m.any (·.1 = kv.2.Key) then m else m ++ [(kv.2.Key, [])]) m

/-! ### The ten reconciliation tasks (`controller.go`) -/

/-- The common task signature (Go `Task`), with the driver state and the
registry threaded through explicitly. -/
def SyncTask : Type :=
  List String → List ChainID → List (String × List ChainID) → Env → Ctrl → Env × Ctrl

/-- Go `Controller.deleteChain`: flush, then delete. -/
def deleteChain (F : List Nat) (cid : ChainID) (e : Env) : Except String Unit × Env :=
  let chainName := cid.encodeName
  match iptClearChain F .nat chainName e with
  | (.error err, e1) =>
    (.error ("couldn't flush chain `" ++ chainName ++ "` (" ++ cid.AsLoadbalancerKey ++
             "), see: " ++ err), e1)
  | (.ok _, e1) =>
    match iptDeleteChain F .nat chainName e1 with
    | (.error err, e2) =>
      (.error ("couldn't delete chain `" ++ chainName ++ "` (" ++ cid.AsLoadbalancerKey ++
               "), see: " ++ err), e2)
    | (.ok _, e2) => (.ok (), e2)

/-- Loop of T1. -/
def dcsicLoop (F : List Nat) : List ChainID → Env → Env
  | [], e => e
  | cid :: rest, e =>
    if cid.State = ChainCreating then dcsicLoop F rest (deleteChain F cid e).2
    else dcsicLoop F rest e

/-- T1, Go `Controller.deleteChainsStuckInCreation`. -/
def deleteChainsStuckInCreation (F : List Nat) : SyncTask := fun _ chainIDs _ e c =>
  (dcsicLoop F chainIDs e, c)

/-- Inner loop of T2: one loadbalancer's chains; `lb` is the local copy Go
fetched before the loop, re-stored (marked updated) on every hash mismatch. -/
def refreshChainsLoop (F : List Nat) (now : Nat) (lbKey : String) :
    List ChainID → Loadbalancer → Env → Ctrl → Env × Ctrl
  | [], _, e, c => (e, c)
  | chain :: rest, lb, e, c =>
    match iptList F .nat chain.encodeName e with
    | (.error _, e1) => refreshChainsLoop F now lbKey rest lb e1 c
    | (.ok rules, e1) =>
      if calculateHashForRules rules ≠ chain.ContentHash then
        let lb1 := lb.MarkUpdated now
        refreshChainsLoop F now lbKey rest lb1 e1 (ctrlStore c lbKey lb1)
      else refreshChainsLoop F now lbKey rest lb e1 c

/-- Outer loop of T2. -/
def refreshOuter (F : List Nat) (now : Nat) :
    List (String × List ChainID) → Env → Ctrl → Env × Ctrl
  | [], e, c => (e, c)
  | (lbKey, chains) :: rest, e, c =>
    match ctrlLookup c lbKey with
    | none => refreshOuter F now rest e c
    | some lb =>
      match refreshChainsLoop F now lbKey chains lb e c with
      | (e1, c1) => refreshOuter F now rest e1 c1

/-- T2, Go `Controller.refreshLoadbalancersWithBrokenChains`. -/
def refreshLoadbalancersWithBrokenChains (F : List Nat) (now : Nat) : SyncTask :=
  fun _ _ lbToChains e c => refreshOuter F now lbToChains e c

/-- T3, Go `Controller.ensureForwardChainExists` (the found-flag loop with its
early return is the membership test). -/
def ensureForwardChainExists (F : List Nat) : SyncTask := fun _ _ _ e c =>
  match iptListChains F .filter e with
  | (.error _, e1) => (e1, c)
  | (.ok allChains, e1) =>
    if allChains.contains forwardChainName then (e1, c)
    else ((iptNewChain F .filter forwardChainName e1).2, c)

/-- Per-output body of T4: ensure the source and destination ACCEPT rules. -/
def efceOutputsLoop (F : List Nat) (rules : List String) (prot : Nat) :
    List Endpoint → Env → Env
  | [], e => e
  | output :: outs, e =>
    let srcRule := getSrcForwardRuleStringForEndpointAndProt output prot
    let e1 :=
      if ¬ rulesContainRule rules srcRule then
        (iptAppend F .filter forwardChainName (goSplitChar ' ' srcRule) e).2
      else e
    let dstRule := getDstForwardRuleStringForEndpointAndProt output prot
    let e2 :=
      if ¬ rulesContainRule rules dstRule then
        (iptAppend F .filter forwardChainName (goSplitChar ' ' dstRule) e1).2
      else e1
    efceOutputsLoop F rules prot outs e2

/-- Per-loadbalancer loop of T4. -/
def efceLBLoop (F : List Nat) (rules : List String) :
    List (String × Loadbalancer) → Env → Env
  | [], e => e
  | (_, lb) :: rest, e =>
    efceLBLoop F rules rest (efceOutputsLoop F rules lb.Protocol lb.Outputs e)

/-- T4, Go `Controller.ensureForwardChainEntries`. -/
def ensureForwardChainEntries (F : List Nat) : SyncTask := fun _ _ _ e c =>
  match iptList F .filter forwardChainName e with
  | (.error _, e1) => (e1, c)
  | (.ok rules, e1) => (efceLBLoop F rules c.loadbalancers e1, c)

/-- T5, Go `Controller.ensureMainChainExists` (works on the task's `allChains`
argument). -/
def ensureMainChainExists (F : List Nat) : SyncTask := fun allChains _ _ e c =>
  if allChains.contains mainChainName then (e, c)
  else ((iptNewChain F .nat mainChainName e).2, c)

/-- Fan-out loop of Go `Controller.createChainForLB` (`for i := lenOutputs;
i > 1; i--`); any append error aborts with the constructed error. -/
def fanoutLoop (F : List Nat) (lb : Loadbalancer) (chainName : String) :
    Nat → Env → Except String Unit × Env
  | 0, e => (.ok (), e)
  | 1, e => (.ok (), e)
  | i + 2, e =>
    let output := lb.Outputs.getD (i + 1) default
    let rule :=
      "-p " ++ protoString lb.Protocol ++ " -d " ++ optIPRender lb.Input.ip ++
      " --dport " ++ natRepr lb.Input.port ++ " -m statistic --mode nth --every " ++
      natRepr (i + 2) ++ " --packet 0 -j DNAT --to-destination " ++ output.render
    match iptAppend F .nat chainName (goSplitChar ' ' rule) e with
    | (.error err, e1) =>
      (.error ("couldn't create rule `" ++ rule ++ "` in chain `" ++ chainName ++
               "` for output `" ++ output.render ++ "` lb `" ++ lb.Key ++ "`, see: " ++ err), e1)
    | (.ok _, e1) => fanoutLoop F lb chainName (i + 1) e1

/-- Go `Controller.createChainForLB`. -/
def createChainForLB (F : List Nat) (lb : Loadbalancer) (e : Env) :
    Except String ChainID × Env :=
  if lb.Outputs.length = 0 then
    (.error ("zero outputs defined for lb `" ++ lb.Key ++
             "`, dunno what to do here, not creating chain"), e)
  else
    let chain := lb.GetChainID ChainCreating 0
    match iptNewChain F .nat chain.encodeName e with
    | (.error err, e1) =>
      (.error ("couldn't create chain `" ++ chain.encodeName ++ "` for lb `" ++ lb.Key ++
               "`, see: " ++ err), e1)
    | (.ok _, e1) =>
      match fanoutLoop F lb chain.encodeName lb.Outputs.length e1 with
      | (.error err, e2) => (.error err, e2)
      | (.ok _, e2) =>
        let rule :=
          "-p " ++ protoString lb.Protocol ++ " -d " ++ optIPRender lb.Input.ip ++
          " --dport " ++ natRepr lb.Input.port ++ " -j DNAT --to-destination " ++
          (lb.Outputs.getD 0 default).render
        match iptAppend F .nat chain.encodeName (goSplitChar ' ' rule) e2 with
        | (.error err, e3) =>
          (.error ("couldn't create rule `" ++ rule ++ "` in chain `" ++ chain.encodeName ++
                   "` for output `" ++ (lb.Outputs.getD 0 default).render ++ "` lb `" ++
                   lb.Key ++ "`, see: " ++ err), e3)
        | (.ok _, e3) =>
          match iptList F .nat chain.encodeName e3 with
          | (.error err, e4) =>
            (.error ("couldn't retrieve rules in chain `" ++ chain.encodeName ++
                     "`, see: " ++ err), e4)
          | (.ok rules, e4) =>
            let newChainID := lb.GetChainID ChainCreated (calculateHashForRules rules)
            match iptRenameChain F .nat chain.encodeName newChainID.encodeName e4 with
            | (.error err, e5) =>
              (.error ("couldn't rename chain `" ++ chain.encodeName ++
                       "` (creating) to `" ++ newChainID.encodeName ++
                       "` (created) for lb `" ++ lb.Key ++ "`, see: " ++ err), e5)
            | (.ok _, e5) => (.ok newChainID, e5)

/-- Loop of T6 (`ensureChains` does not modify the registry). -/
def ensureChainsLoop (F : List Nat) (c : Ctrl) :
    List (String × List ChainID) → Env → Env
  | [], e => e
  | (lbKey, chains) :: rest, e =>
    match ctrlLookup c lbKey with
    | none => ensureChainsLoop F c rest e
    | some lb =>
      let existingChainName := chains.foldl
        (fun acc chain =>
          if chain.State = ChainCreated ∧ chain.LastUpdate = lb.LastUpdate then
            chain.encodeName
          else acc) ""
      if existingChainName ≠ "" then ensureChainsLoop F c rest e
      else ensureChainsLoop F c rest (createChainForLB F lb e).2

/-- T6, Go `Controller.ensureChains`. -/
def ensureChains (F : List Nat) : SyncTask := fun _ _ lbToChains e c =>
  (ensureChainsLoop F c lbToChains e, c)

/-- Loop of T7. -/
def emceLoop (F : List Nat) (rules : List String) (c : Ctrl) :
    List (String × List ChainID) → Env → Env
  | [], e => e
  | (lbKey, chains) :: rest, e =>
    match ctrlLookup c lbKey with
    | none => emceLoop F rules c rest e
    | some _ =>
      let createdChains := getChainIDsWithState chains ChainCreated
      if createdChains.length = 0 then emceLoop F rules c rest e
      else
        let latest := getLatestChainID createdChains
        let rule := getRuleStringForMainChainEntryToChain latest
        if rulesContainRule rules rule then emceLoop F rules c rest e
        else emceLoop F rules c rest (iptAppend F .nat mainChainName (goSplitChar ' ' rule) e).2

/-- T7, Go `Controller.ensureMainChainEntries` (note: a listing error returns
without touching anything). -/
def ensureMainChainEntries (F : List Nat) : SyncTask := fun _ _ lbToChains e c =>
  match iptList F .nat mainChainName e with
  | (.error _, e1) => (e1, c)
  | (.ok rules, e1) => (emceLoop F rules c lbToChains e1, c)

/-- Go `Controller.removeMainChainEntryToChain`. -/
def removeMainChainEntryToChain (F : List Nat) (chain : ChainID) (e : Env) :
    Except String Unit × Env :=
  let rule := getRuleStringForMainChainEntryToChain chain
  match iptDelete F .nat mainChainName (goSplitChar ' ' rule) e with
  | (.error err, e1) =>
    (.error ("couldn't remove rule `" ++ rule ++ "` for lb `" ++ chain.AsLoadbalancerKey ++
             "` from main chain, see: " ++ err), e1)
  | (.ok _, e1) => (.ok (), e1)

/-- T8's regrouping of the main chain's rules by loadbalancer key (Go rebuilds
`lbToChains` from the freshly listed rules; unparseable rules are skipped). -/
def domceGather : List String → List (String × List ChainID) → List (String × List ChainID)
  | [], m => m
  | rule :: rest, m =>
    if rule = "-N " ++ mainChainName then domceGather rest m
    else
      match getChainIDForMainChainRule rule with
      | .error _ => domceGather rest m
      | .ok cid => domceGather rest (alistAppendChain m cid.AsLoadbalancerKey cid)

/-- T8: delete every main-chain entry of a deleted loadbalancer. -/
def domceDeleteAll (F : List Nat) : List ChainID → Env → Env
  | [], e => e
  | chain :: rest, e => domceDeleteAll F rest (removeMainChainEntryToChain F chain e).2

/-- T8: delete the entries that are not the newest chain. -/
def domceDeleteOutdated (F : List Nat) (newestName : String) : List ChainID → Env → Env
  | [], e => e
  | chain :: rest, e =>
    if chain.encodeName ≠ newestName then
      domceDeleteOutdated F newestName rest (removeMainChainEntryToChain F chain e).2
    else domceDeleteOutdated F newestName rest e

/-- Per-loadbalancer loop of T8. -/
def domceLoop (F : List Nat) (c : Ctrl) : List (String × List ChainID) → Env → Env
  | [], e => e
  | (lbKey, chains) :: rest, e =>
    if (ctrlLookup c lbKey).isNone then domceLoop F c rest (domceDeleteAll F chains e)
    else if chains.length = 1 then domceLoop F c rest e
    else
      let newest := chains.foldl
        (fun newest chain => if chain.LastUpdate > newest.LastUpdate then chain else newest)
        (chains.headD default)
      domceLoop F c rest (domceDeleteOutdated F newest.encodeName chains e)

/-- T8, Go `Controller.deleteObsoleteMainChainEntries`. -/
def deleteObsoleteMainChainEntries (F : List Nat) : SyncTask := fun _ _ _ e c =>
  match iptList F .nat mainChainName e with
  | (.error _, e1) => (e1, c)
  | (.ok rules, e1) => (domceLoop F c (domceGather rules []) e1, c)

/-- T9's referenced-chain collection from the main chain's rules. -/
def docGatherReferenced : List String → List ChainID → List ChainID
  | [], acc => acc
  | rule :: rest, acc =>
    if rule = "-N " ++ mainChainName then docGatherReferenced rest acc
    else
      match getChainIDForMainChainRule rule with
      | .error _ => docGatherReferenced rest acc
      | .ok cid => docGatherReferenced rest (acc ++ [cid])

/-- T9's deletion loop over the parsed chains. -/
def docDeleteLoop (F : List Nat) (referenced : List ChainID) : List ChainID → Env → Env
  | [], e => e
  | cid :: rest, e =>
    if ¬ chainIDsContainID referenced cid then
      docDeleteLoop F referenced rest (deleteChain F cid e).2
    else docDeleteLoop F referenced rest e

/-- T9, Go `Controller.deleteObsoleteChains`. -/
def deleteObsoleteChains (F : List Nat) : SyncTask := fun _ chainIDs _ e c =>
  match iptList F .nat mainChainName e with
  | (.error _, e1) => (e1, c)
  | (.ok rules, e1) => (docDeleteLoop F (docGatherReferenced rules []) chainIDs e1, c)

/-- Set insertion into the endpoint set (Go `map[string]struct{}`). -/
def setInsert (acc : List String) (x : String) : List String :=
  if acc.contains x then acc else acc ++ [x]

/-- T10's per-chain rule scan: collect `--to-destination` endpoints; any rule
without one aborts the whole gather. -/
def gatherChainEndpoints (chainName : String) :
    List String → List String → Except String (List String)
  | [], acc => .ok acc
  | rule :: rest, acc =>
    if rule = "-N " ++ chainName then gatherChainEndpoints chainName rest acc
    else
      match getDestinationFromRule rule with
      | .error err => .error err
      | .ok dest => gatherChainEndpoints chainName rest (setInsert acc dest.render)

/-- T10's gather phase: list every parsed chain and collect the referenced
endpoints; a listing error or an endpoint-less rule aborts the gather. -/
def gatherReferencedEndpoints (F : List Nat) :
    List ChainID → List String → Env → Except String (List String) × Env
  | [], acc, e => (.ok acc, e)
  | cid :: rest, acc, e =>
    match iptList F .nat cid.encodeName e with
    | (.error err, e1) => (.error err, e1)
    | (.ok rulesInChain, e1) =>
      match gatherChainEndpoints cid.encodeName rulesInChain acc with
      | .error err => (.error err, e1)
      | .ok acc1 => gatherReferencedEndpoints F rest acc1 e1

/-- T10's deletion loop over the forward chain's rules. -/
def dofceDeleteLoop (F : List Nat) (referenced : List String) : List String → Env → Env
  | [], e => e
  | rule0 :: rest, e =>
    let rule := stripNARules rule0
    if rule = "" then dofceDeleteLoop F referenced rest e
    else
      match getDestinationFromForwardRule rule with
      | .error _ => dofceDeleteLoop F referenced rest e
      | .ok dest =>
        if ¬ referenced.contains dest.render then
          let rule1 := goReplaceAll rule (optIPRender dest.ip ++ "/32") (optIPRender dest.ip)
          dofceDeleteLoop F referenced rest
            (iptDelete F .filter forwardChainName (goSplitChar ' ' rule1) e).2
        else dofceDeleteLoop F referenced rest e

/-- T10, Go `Controller.deleteObsoleteForwardChainEntries`. -/
def deleteObsoleteForwardChainEntries (F : List Nat) : SyncTask := fun _ chainIDs _ e c =>
  match iptList F .filter forwardChainName e with
  | (.error _, e1) => (e1, c)
  | (.ok forwardRules, e1) =>
    match gatherReferencedEndpoints F chainIDs [] e1 with
    | (.error _, e2) => (e2, c)
    | (.ok referenced, e2) => (dofceDeleteLoop F referenced forwardRules e2, c)

/-! ### The sync pipeline (`controller.go`: `Controller.sync`) -/

/-- The task list of `sync`, in source order T1..T10. -/
def syncTasks (F : List Nat) (now : Nat) : List SyncTask :=
  [deleteChainsStuckInCreation F,
   refreshLoadbalancersWithBrokenChains F now,
   ensureForwardChainExists F,
   ensureForwardChainEntries F,
   ensureMainChainExists F,
   ensureChains F,
   ensureMainChainEntries F,
   deleteObsoleteMainChainEntries F,
   deleteObsoleteChains F,
   deleteObsoleteForwardChainEntries F]

/-- The loop body of `sync`: list the nat table's chains; on error count and
skip the task (`continue`), otherwise derive the task arguments and run it. -/
def syncStep (F : List Nat) (acc : Env × Ctrl) (t : SyncTask) : Env × Ctrl :=
  match iptListChains F .nat acc.1 with
  | (.error _, e1) => (e1, acc.2)
  | (.ok allChains, e1) =>
    let chainIDs := findChainIDs allChains
    let lbToChains := mapLoadbalancerKeyToChainIDs chainIDs acc.2
    t allChains chainIDs lbToChains e1 acc.2

/-- Go `Controller.sync` (metrics updates omitted: the metrics exporter is an
external collaborator and updates no modelled state). -/
def sync (F : List Nat) (e : Env) (c : Ctrl) (now : Nat) : Env × Ctrl :=
  (syncTasks F now).foldl (syncStep F) (e, c)

/-- Modelled from the spec: "Every invocation of sync() executes exactly the
ten reconciliation tasks, once each, strictly in the order [T1..T10], with a
fresh listing of the nat table's chains taken before each task."  The listing
is taken unconditionally (the spec's description assumes it succeeds): the
chain names are read directly from the table while the listing operation is
still recorded. -/
def syncSpecStep (F : List Nat) (acc : Env × Ctrl) (t : SyncTask) : Env × Ctrl :=
  let e1 := acc.1.emit (.listChains .nat)
  let allChains := (acc.1.table .nat).map (·.1)
  let chainIDs := findChainIDs allChains
  let lbToChains := mapLoadbalancerKeyToChainIDs chainIDs acc.2
  t allChains chainIDs lbToChains e1 acc.2

/-- Modelled from the spec: the ten-task reference pipeline (see
`syncSpecStep`). -/
def syncTenTasksSpec (F : List Nat) (e : Env) (c : Ctrl) (now : Nat) : Env × Ctrl :=
  (syncTasks F now).foldl (syncSpecStep F) (e, c)

/-! ### Slice-level model of `UpsertLoadbalancer` (for the storage-copy claim)

Go's `lbCopy := *lb` copies the struct shallowly: the `Outputs` field is a
slice header (backing array + length) and the copy shares the backing array
with the caller's value.  This level models exactly that: a heap of backing
arrays, slice headers pointing into it, and the caller's possible later
mutations (replacing the slice, appending in place past the stored length, or
writing an element in place). -/

/-- A Go slice header: backing array id and length (capacity is the backing
array's length). -/
structure SliceRef where
  arrId : Nat
  len : Nat
deriving DecidableEq, Repr

/-- The heap of endpoint backing arrays. -/
structure GoHeap where
  arrs : List (List Endpoint)
deriving DecidableEq, Repr

/-- The endpoint sequence a slice denotes. -/
def readSlice (hp : GoHeap) (s : SliceRef) : List Endpoint :=
  (hp.arrs.getD s.arrId []).take s.len

/-- In-place element write `arr[idx] = v`, visible through every alias of the
backing array (`List.set` ignores out-of-range writes, as Go would panic
there). -/
def writeElem (hp : GoHeap) (arrId idx : Nat) (v : Endpoint) : GoHeap :=
  ⟨hp.arrs.set arrId ((hp.arrs.getD arrId []).set idx v)⟩

/-- A `Loadbalancer` value at slice level. -/
structure LoadbalancerH where
  LastUpdate : Nat
  Protocol : Nat
  Input : Endpoint
  Outputs : SliceRef
deriving DecidableEq, Repr

def LoadbalancerH.Key (lb : LoadbalancerH) : String :=
  GetLoadbalancerKey lb.Protocol lb.Input

def regLookup (reg : List (String × LoadbalancerH)) (k : String) : Option LoadbalancerH :=
  alookup reg k

def regStore (reg : List (String × LoadbalancerH)) (k : String) (lb : LoadbalancerH) :
    List (String × LoadbalancerH) :=
  astore reg k lb

/-- Go `Controller.UpsertLoadbalancer` at slice level: delete on empty
`Outputs` (Go `len(lb.Outputs)` reads the header), else store the struct copy
with `MarkUpdated` applied — the copy shares the `Outputs` backing array. -/
def UpsertLoadbalancerH (reg : List (String × LoadbalancerH)) (lb : LoadbalancerH)
    (now : Nat) : List (String × LoadbalancerH) :=
  if lb.Outputs.len = 0 then reg.filter (fun p => ¬ (p.1 = lb.Key))
  else regStore reg lb.Key { lb with LastUpdate := now % 4294967296 }

/-! # Claim theorems -/

/-! ## C10: retention after a healthy check -/

/-- C10 (counterexample): the claim says a healthy check makes `Retention`
equal exactly `defaultRetention` (one second).  The code sets it to
`defaultRetention + jitter` with `jitter = (rand.Float64()/2) * time.Second`;
the draw 0.5 (exactly representable) gives jitter 250000000 ns, so after a
healthy check `Retention = 1250000000 ≠ 1000000000`.  Concrete run: retention
had grown to 5 s, the provider reports healthy. -/
theorem checkHealth_retention_jitter_cex :
    (CheckHealth ⟨false, 0, 0, "", 5000000000, 60000000000⟩ "success" true 250000000 99).Retention
      = 1250000000 ∧ ¬ (1250000000 = defaultRetention) := by decide

/-- C10 (amended): after a single healthy `CheckHealth`, `Retention` equals
`defaultRetention + jitter` — independent of how large it had grown — and for
every possible jitter draw (`jitter < defaultRetention/2`) it lies in
`[defaultRetention, 1.5 * defaultRetention)`; the claim's exact-equality holds
only for the zero draw. -/
theorem checkHealth_healthy_resets_retention (h : HealthCheck) (msg : String)
    (jitter now : Nat) (hj : jitter < 500000000) :
    (CheckHealth h msg true jitter now).Retention = defaultRetention + jitter ∧
    defaultRetention ≤ (CheckHealth h msg true jitter now).Retention ∧
    (CheckHealth h msg true jitter now).Retention < 1500000000 := by
  refine ⟨rfl, ?_, ?_⟩ <;> simp [CheckHealth, defaultRetention] <;> omega

/-- Witness for C10's amended theorem at a concrete state and draw. -/
theorem checkHealth_healthy_resets_retention_witness :
    250000000 < 500000000 ∧
    ((CheckHealth ⟨false, 0, 0, "", 31000000000, 60000000000⟩ "m" true 250000000 7).Retention
        = defaultRetention + 250000000 ∧
      defaultRetention ≤
        (CheckHealth ⟨false, 0, 0, "", 31000000000, 60000000000⟩ "m" true 250000000 7).Retention ∧
      (CheckHealth ⟨false, 0, 0, "", 31000000000, 60000000000⟩ "m" true 250000000 7).Retention
        < 1500000000) :=
  ⟨by decide,
   checkHealth_healthy_resets_retention ⟨false, 0, 0, "", 31000000000, 60000000000⟩ "m"
     250000000 7 (by decide)⟩

/-! ## C6: upsert semantics and the stored copy -/

/-- C6 (counterexample): the claim says later caller mutations to the passed
value's `Outputs` sequence never affect the stored record.  The stored record
is a shallow struct copy sharing the `Outputs` backing array, so an in-place
element write `lb.Outputs[0] = e` after the upsert changes what the stored
record's `Outputs` denotes. -/
theorem upsertLoadbalancer_shared_backing_cex :
    regLookup
        (UpsertLoadbalancerH [] ⟨0, 1, ⟨some ⟨9, 9, 9, 9⟩, 80⟩, ⟨0, 2⟩⟩ 55)
        "tcp://9.9.9.9:80"
      = some ⟨55, 1, ⟨some ⟨9, 9, 9, 9⟩, 80⟩, ⟨0, 2⟩⟩ ∧
    readSlice ⟨[[⟨some ⟨1, 1, 1, 1⟩, 10⟩, ⟨some ⟨2, 2, 2, 2⟩, 20⟩]]⟩ ⟨0, 2⟩
      = [⟨some ⟨1, 1, 1, 1⟩, 10⟩, ⟨some ⟨2, 2, 2, 2⟩, 20⟩] ∧
    ¬ (readSlice
          (writeElem ⟨[[⟨some ⟨1, 1, 1, 1⟩, 10⟩, ⟨some ⟨2, 2, 2, 2⟩, 20⟩]]⟩ 0 0
            ⟨some ⟨7, 7, 7, 7⟩, 70⟩) ⟨0, 2⟩
        = readSlice ⟨[[⟨some ⟨1, 1, 1, 1⟩, 10⟩, ⟨some ⟨2, 2, 2, 2⟩, 20⟩]]⟩ ⟨0, 2⟩) := by
  decide

/-- C6 (amended): `UpsertLoadbalancer` deletes the registry entry when the
passed value's `Outputs` is empty; otherwise it stores a struct copy whose
generation is set to now, under the value's key.  Because the copy is shallow,
caller mutations that replace fields of the passed value (including replacing
its `Outputs` slice) cannot affect the stored record, and in-place writes at
or past the stored length (appends into spare capacity) leave the stored
record's denotation unchanged — but in-place writes inside the stored length
do reach the stored record (see the counterexample). -/
theorem upsertLoadbalancer_stores_copy (reg : List (String × LoadbalancerH))
    (hp : GoHeap) (lb : LoadbalancerH) (now idx : Nat) (v : Endpoint)
    (hk : lb.Outputs.len ≠ 0) (hidx : lb.Outputs.len ≤ idx) :
    regLookup (UpsertLoadbalancerH reg lb now) lb.Key
      = some { lb with LastUpdate := now % 4294967296 } ∧
    readSlice (writeElem hp lb.Outputs.arrId idx v) lb.Outputs = readSlice hp lb.Outputs := by
  constructor
  · simp only [UpsertLoadbalancerH, hk, if_false, regStore, regLookup]
    exact alookup_astore_self ..
  · simp only [readSlice, writeElem]
    by_cases ha : lb.Outputs.arrId < hp.arrs.length
    · rw [List.getD_eq_getElem?_getD, List.getElem?_set_self', List.getD_eq_getElem?_getD,
        List.getElem?_eq_getElem ha]
      have hgd : hp.arrs.getD lb.Outputs.arrId [] = hp.arrs[lb.Outputs.arrId] := by
        rw [List.getD_eq_getElem?_getD, List.getElem?_eq_getElem ha]
        rfl
      simp only [Option.map_some, Function.const_apply, Option.getD_some, hgd]
      exact take_set_of_le _ idx v _ hidx
    · rw [List.set_eq_of_length_le (by omega)]

def lbW6 : LoadbalancerH := ⟨0, 1, ⟨some ⟨9, 9, 9, 9⟩, 80⟩, ⟨0, 2⟩⟩

def hpW6 : GoHeap := ⟨[[⟨some ⟨1, 1, 1, 1⟩, 10⟩, ⟨some ⟨2, 2, 2, 2⟩, 20⟩]]⟩

/-- Witness for the amended C6 theorem: a two-output record upserted into the
empty registry; a write at index 5 (append growth) leaves the stored record's
denotation unchanged. -/
theorem upsertLoadbalancer_stores_copy_witness :
    (lbW6.Outputs.len ≠ 0 ∧ lbW6.Outputs.len ≤ 5) ∧
    (regLookup (UpsertLoadbalancerH [] lbW6 55) lbW6.Key
        = some { lbW6 with LastUpdate := 55 % 4294967296 } ∧
      readSlice (writeElem hpW6 lbW6.Outputs.arrId 5 ⟨none, 1⟩) lbW6.Outputs
        = readSlice hpW6 lbW6.Outputs) :=
  ⟨⟨by decide, by decide⟩,
   upsertLoadbalancer_stores_copy [] hpW6 lbW6 55 5 ⟨none, 1⟩ (by decide) (by decide)⟩

/-! ### Rendering and parsing lemmas (for the endpoint-range claim) -/

theorem digit_char_toNat {d : Nat} (h : d < 10) : (Char.ofNat (48 + d)).toNat = 48 + d := by
  interval_cases d <;> decide

theorem natReprAux_ne_nil (n : Nat) : natReprAux n ≠ [] := by
  rw [natReprAux_eq]
  split <;> simp

theorem natReprAux_digits : ∀ n, ∀ c ∈ natReprAux n, isDigitChar c = true := by
  intro n
  induction n using Nat.strong_induction_on with
  | _ n ih =>
    rw [natReprAux_eq]
    split
    · rename_i h
      intro c hc
      simp only [List.mem_singleton] at hc
      subst hc
      unfold isDigitChar
      rw [digit_char_toNat h]
      simp only [Bool.and_eq_true, decide_eq_true_eq]
      omega
    · rename_i h
      intro c hc
      rcases List.mem_append.mp hc with h1 | h1
      · exact ih (n / 10) (Nat.div_lt_self (by omega) (by omega)) c h1
      · simp only [List.mem_singleton] at h1
        subst h1
        unfold isDigitChar
        rw [digit_char_toNat (show n % 10 < 10 by omega)]
        simp only [Bool.and_eq_true, decide_eq_true_eq]
        omega

theorem not_mem_natReprAux {c : Char} (hc : isDigitChar c = false) (n : Nat) :
    c ∉ natReprAux n := by
  intro hm
  rw [natReprAux_digits n c hm] at hc
  simp at hc

theorem parseDigitsAux_append (xs ys : List Char) :
    ∀ acc, parseDigitsAux (xs ++ ys) acc =
      match parseDigitsAux xs acc with
      | some v => parseDigitsAux ys v
      | none => none := by
  induction xs with
  | nil => intro acc; rfl
  | cons c cs ih =>
    intro acc
    simp only [List.cons_append, parseDigitsAux]
    by_cases h : isDigitChar c
    · simp only [h, if_true]
      exact ih _
    · simp [h]

theorem parse_natReprAux : ∀ n acc,
    parseDigitsAux (natReprAux n) acc = some (acc * 10 ^ (natReprAux n).length + n) := by
  intro n
  induction n using Nat.strong_induction_on with
  | _ n ih =>
    intro acc
    rw [natReprAux_eq]
    split
    · rename_i h
      have hd : isDigitChar (Char.ofNat (48 + n)) = true := by
        unfold isDigitChar
        rw [digit_char_toNat h]
        simp only [Bool.and_eq_true, decide_eq_true_eq]
        omega
      simp only [parseDigitsAux, hd, if_true, digit_char_toNat h, List.length_cons,
        List.length_nil]
      have : acc * 10 + (48 + n - 48) = acc * 10 ^ (0 + 1) + n := by
        rw [pow_succ, pow_zero]
        omega
      rw [this]
    · rename_i h
      have hlt : n / 10 < n := Nat.div_lt_self (by omega) (by omega)
      rw [parseDigitsAux_append, ih (n / 10) hlt acc]
      have hd : isDigitChar (Char.ofNat (48 + n % 10)) = true := by
        unfold isDigitChar
        rw [digit_char_toNat (show n % 10 < 10 by omega)]
        simp only [Bool.and_eq_true, decide_eq_true_eq]
        omega
      simp only [parseDigitsAux, hd, if_true, digit_char_toNat (show n % 10 < 10 by omega),
        List.length_append, List.length_cons, List.length_nil]
      congr 1
      calc (acc * 10 ^ (natReprAux (n / 10)).length + n / 10) * 10 + (48 + n % 10 - 48)
          = acc * (10 ^ (natReprAux (n / 10)).length * 10) + (n / 10 * 10 + n % 10) := by
            ring_nf
            omega
        _ = acc * 10 ^ ((natReprAux (n / 10)).length + 1) + n := by
            rw [pow_succ]
            congr 1
            omega
        _ = acc * 10 ^ ((natReprAux (n / 10)).length + (1 + 0)) + n := by norm_num

theorem natRepr_data (n : Nat) : (natRepr n).data = natReprAux n := rfl

/-- Decimal rendering parses back to the same number. -/
theorem atoi_natRepr (n : Nat) : goAtoi (natRepr n) = .ok (n : Int) := by
  obtain ⟨c, cs, hl⟩ : ∃ c cs, natReprAux n = c :: cs := by
    cases hh : natReprAux n with
    | nil => exact absurd hh (natReprAux_ne_nil n)
    | cons c cs => exact ⟨c, cs, rfl⟩
  have hc : isDigitChar c = true := natReprAux_digits n c (by rw [hl]; exact List.mem_cons_self ..)
  have hcp : c ≠ '+' := by
    intro e
    rw [e] at hc
    exact absurd hc (by decide)
  have hcm : c ≠ '-' := by
    intro e
    rw [e] at hc
    exact absurd hc (by decide)
  unfold goAtoi
  rw [natRepr_data, hl]
  split
  · rename_i rest heq
    injection heq with h1 _
    exact absurd h1 hcp
  · rename_i rest heq
    injection heq with h1 _
    exact absurd h1 hcm
  · simp only [if_neg (show ¬ ((c :: cs, false).1 = []) by simp)]
    rw [← hl, parse_natReprAux n 0]
    simp

theorem natReprAux_head_ne_zero : ∀ n, 1 ≤ n → ∀ c, (natReprAux n).head? = some c → c ≠ '0' := by
  intro n
  induction n using Nat.strong_induction_on with
  | _ n ih =>
    intro hn c hc
    rw [natReprAux_eq] at hc
    split at hc
    · rename_i h
      simp only [List.head?_cons, Option.some.injEq] at hc
      subst hc
      intro e
      have ht := digit_char_toNat h
      rw [e] at ht
      simp only [show ('0').toNat = 48 from rfl] at ht
      omega
    · rename_i h
      obtain ⟨c0, cs0, hl0⟩ : ∃ c0 cs0, natReprAux (n / 10) = c0 :: cs0 := by
        cases hh : natReprAux (n / 10) with
        | nil => exact absurd hh (natReprAux_ne_nil (n / 10))
        | cons c0 cs0 => exact ⟨c0, cs0, rfl⟩
      rw [hl0, List.cons_append, List.head?_cons] at hc
      injection hc with hc0
      rw [← hc0]
      exact ih (n / 10) (Nat.div_lt_self (by omega) (by omega)) (by omega) c0 (by rw [hl0]; rfl)

theorem parseIPv4Field_natRepr (n : Nat) (h : n ≤ 255) :
    parseIPv4Field (natReprAux n) = some n := by
  obtain ⟨c, cs, hl⟩ : ∃ c cs, natReprAux n = c :: cs := by
    cases hh : natReprAux n with
    | nil => exact absurd hh (natReprAux_ne_nil n)
    | cons c cs => exact ⟨c, cs, rfl⟩
  unfold parseIPv4Field
  have hall : (natReprAux n).all isDigitChar = true :=
    List.all_eq_true.mpr (natReprAux_digits n)
  have hlead : (natReprAux n).length = 1 ∨ (natReprAux n).headD 'A' ≠ '0' := by
    by_cases hsmall : n < 10
    · left
      rw [natReprAux_eq, if_pos hsmall]
      rfl
    · right
      rw [hl]
      apply natReprAux_head_ne_zero n (by omega)
      rw [hl]
      rfl
  rw [if_neg (natReprAux_ne_nil n), if_pos ⟨hall, hlead⟩, parse_natReprAux n 0]
  simp only [Nat.zero_mul, Nat.zero_add]
  rw [if_pos h]

theorem splitCharAux_no_sep (sep : Char) :
    ∀ l acc, sep ∉ l → splitCharAux sep l acc = [acc.reverse ++ l] := by
  intro l
  induction l with
  | nil =>
    intro acc _
    simp [splitCharAux]
  | cons c cs ih =>
    intro acc h
    have hc : ¬ (c = sep) := fun e => h (by rw [e]; exact List.mem_cons_self ..)
    simp only [splitCharAux, if_neg hc]
    rw [ih (c :: acc) (fun hm => h (List.mem_cons_of_mem c hm))]
    simp

theorem splitCharAux_sep_head (sep : Char) :
    ∀ l₁ l₂ acc, sep ∉ l₁ →
      splitCharAux sep (l₁ ++ sep :: l₂) acc =
        (acc.reverse ++ l₁) :: splitCharAux sep l₂ [] := by
  intro l₁
  induction l₁ with
  | nil =>
    intro l₂ acc _
    simp [splitCharAux]
  | cons c cs ih =>
    intro l₂ acc h
    have hc : ¬ (c = sep) := fun e => h (by rw [e]; exact List.mem_cons_self ..)
    simp only [List.cons_append, splitCharAux, if_neg hc, List.append_eq]
    rw [ih l₂ (c :: acc) (fun hm => h (List.mem_cons_of_mem c hm))]
    simp

/-- `strings.Split` on a separator-free string. -/
theorem goSplitChar_single (sep : Char) (s : String) (h : sep ∉ s.data) :
    goSplitChar sep s = [s] := by
  unfold goSplitChar
  rw [splitCharAux_no_sep sep s.data [] h]
  cases s
  simp

/-- `strings.Split` with exactly one separator occurrence. -/
theorem goSplitChar_pair (sep : Char) (l₁ l₂ : List Char) (h₁ : sep ∉ l₁) (h₂ : sep ∉ l₂) :
    goSplitChar sep ⟨l₁ ++ sep :: l₂⟩ = [⟨l₁⟩, ⟨l₂⟩] := by
  unfold goSplitChar
  rw [show (String.mk (l₁ ++ sep :: l₂)).data = l₁ ++ sep :: l₂ from rfl,
    splitCharAux_sep_head sep l₁ l₂ [] h₁, splitCharAux_no_sep sep l₂ [] h₂]
  simp

/-- `strings.Split` with exactly three separator occurrences. -/
theorem goSplitChar_quad (sep : Char) (l₁ l₂ l₃ l₄ : List Char)
    (h₁ : sep ∉ l₁) (h₂ : sep ∉ l₂) (h₃ : sep ∉ l₃) (h₄ : sep ∉ l₄) :
    goSplitChar sep ⟨l₁ ++ sep :: (l₂ ++ sep :: (l₃ ++ sep :: l₄))⟩ =
      [⟨l₁⟩, ⟨l₂⟩, ⟨l₃⟩, ⟨l₄⟩] := by
  unfold goSplitChar
  rw [show (String.mk (l₁ ++ sep :: (l₂ ++ sep :: (l₃ ++ sep :: l₄)))).data
      = l₁ ++ sep :: (l₂ ++ sep :: (l₃ ++ sep :: l₄)) from rfl,
    splitCharAux_sep_head sep l₁ _ [] h₁, splitCharAux_sep_head sep l₂ _ [] h₂,
    splitCharAux_sep_head sep l₃ _ [] h₃, splitCharAux_no_sep sep l₄ [] h₄]
  simp

/-- The dotted-quad rendering of in-range octets parses back (Go
`ParseIP(...).To4()`). -/
theorem goParseIPv4_render (a b c d : Nat)
    (ha : a ≤ 255) (hb : b ≤ 255) (hc : c ≤ 255) (hd : d ≤ 255) :
    goParseIPv4 (IPv4.render ⟨a, b, c, d⟩) = some ⟨a, b, c, d⟩ := by
  have hdata : (IPv4.render ⟨a, b, c, d⟩).data
      = natReprAux a ++ '.' :: (natReprAux b ++ '.' :: (natReprAux c ++ '.' :: natReprAux d)) := by
    simp [IPv4.render, String.data_append, natRepr_data]
  unfold goParseIPv4
  rw [show IPv4.render ⟨a, b, c, d⟩ = ⟨(IPv4.render ⟨a, b, c, d⟩).data⟩ by rfl, hdata,
    goSplitChar_quad '.' _ _ _ _
      (not_mem_natReprAux (by decide) a) (not_mem_natReprAux (by decide) b)
      (not_mem_natReprAux (by decide) c) (not_mem_natReprAux (by decide) d)]
  simp only [List.map_cons, List.map_nil]
  rw [parseIPv4Field_natRepr a ha, parseIPv4Field_natRepr b hb,
    parseIPv4Field_natRepr c hc, parseIPv4Field_natRepr d hd]

theorem dot_data : ("." : String).data = ['.'] := rfl

theorem dash_data : ("-" : String).data = ['-'] := rfl

theorem colon_data : (":" : String).data = [':'] := rfl

theorem toU16_ofNat (P : Nat) (h : P < 65536) : toU16 (P : Int) = P := by
  unfold toU16
  omega

theorem ipRender_data (A B C X : Nat) :
    (IPv4.render ⟨A, B, C, X⟩).data =
      natReprAux A ++ '.' :: (natReprAux B ++ '.' :: (natReprAux C ++ '.' :: natReprAux X)) := by
  simp [IPv4.render, String.data_append, natRepr_data, dot_data]

theorem mem_ipRender (A B C X : Nat) :
    ∀ e ∈ (IPv4.render ⟨A, B, C, X⟩).data, isDigitChar e = true ∨ e = '.' := by
  intro e he
  rw [ipRender_data] at he
  simp only [List.mem_append, List.mem_cons] at he
  rcases he with h | h | h | h | h | h | h
  · exact Or.inl (natReprAux_digits A e h)
  · exact Or.inr h
  · exact Or.inl (natReprAux_digits B e h)
  · exact Or.inr h
  · exact Or.inl (natReprAux_digits C e h)
  · exact Or.inr h
  · exact Or.inl (natReprAux_digits X e h)

theorem tpe_eval (A B C X Y P : Nat) (hA : A ≤ 255) (hB : B ≤ 255) (hC : C ≤ 255)
    (hX : X ≤ 255) (hP : P < 65536) :
    TryParseEndpoints (IPv4.render ⟨A, B, C, X⟩ ++ "-" ++ natRepr Y ++ ":" ++ natRepr P) =
      if (X : Int) > (Y : Int) then
        .error ("lower address specified in range `" ++
          (IPv4.render ⟨A, B, C, X⟩ ++ "-" ++ natRepr Y ++ ":" ++ natRepr P) ++
          "` is bigger than upper")
      else if (X : Int) = (Y : Int) then .ok [⟨some ⟨A, B, C, X⟩, P⟩]
      else if (Y : Int) > 255 then
        .error ("invalid maximum ip for range `" ++
          (IPv4.render ⟨A, B, C, X⟩ ++ "-" ++ natRepr Y ++ ":" ++ natRepr P) ++ "` given")
      else
        .ok ([⟨some ⟨A, B, C, X⟩, P⟩] ++
          (List.range' (X + 1) ((Y : Int).toNat - X)).map
            (fun i => ⟨some ⟨A, B, C, i⟩, P⟩)) := by
  have hsd : (IPv4.render ⟨A, B, C, X⟩ ++ "-" ++ natRepr Y ++ ":" ++ natRepr P).data
      = ((IPv4.render ⟨A, B, C, X⟩).data ++ '-' :: natReprAux Y) ++ ':' :: natReprAux P := by
    simp [String.data_append, natRepr_data, dash_data, colon_data]
  have hnocomma : ',' ∉ (IPv4.render ⟨A, B, C, X⟩ ++ "-" ++ natRepr Y ++ ":" ++ natRepr P).data := by
    rw [hsd]
    intro hm
    simp only [List.mem_append, List.mem_cons] at hm
    rcases hm with (h | h | h) | h | h
    · rcases mem_ipRender A B C X ',' h with hd | hd
      · exact absurd hd (by decide)
      · exact absurd hd (by decide)
    · exact absurd h (by decide)
    · exact absurd (natReprAux_digits Y ',' h) (by decide)
    · exact absurd h (by decide)
    · exact absurd (natReprAux_digits P ',' h) (by decide)
  have hc1 : ':' ∉ (IPv4.render ⟨A, B, C, X⟩).data ++ '-' :: natReprAux Y := by
    intro hm
    simp only [List.mem_append, List.mem_cons] at hm
    rcases hm with h | h | h
    · rcases mem_ipRender A B C X ':' h with hd | hd
      · exact absurd hd (by decide)
      · exact absurd hd (by decide)
    · exact absurd h (by decide)
    · exact absurd (natReprAux_digits Y ':' h) (by decide)
  have hc2 : ':' ∉ natReprAux P := not_mem_natReprAux (by decide) P
  have hd1 : '-' ∉ (IPv4.render ⟨A, B, C, X⟩).data := by
    intro hm
    rcases mem_ipRender A B C X '-' hm with hd | hd
    · exact absurd hd (by decide)
    · exact absurd hd (by decide)
  have hd2 : '-' ∉ natReprAux Y := not_mem_natReprAux (by decide) Y
  have hsplit2 : goSplitChar ':' (IPv4.render ⟨A, B, C, X⟩ ++ "-" ++ natRepr Y ++ ":" ++ natRepr P)
      = [⟨(IPv4.render ⟨A, B, C, X⟩).data ++ '-' :: natReprAux Y⟩, ⟨natReprAux P⟩] := by
    conv_lhs =>
      rw [show (IPv4.render ⟨A, B, C, X⟩ ++ "-" ++ natRepr Y ++ ":" ++ natRepr P)
        = (⟨(IPv4.render ⟨A, B, C, X⟩ ++ "-" ++ natRepr Y ++ ":" ++ natRepr P).data⟩ : String)
        from rfl, hsd]
    exact goSplitChar_pair ':' _ _ hc1 hc2
  have hsplit3 : goSplitChar '-'
      (⟨(IPv4.render ⟨A, B, C, X⟩).data ++ '-' :: natReprAux Y⟩ : String)
      = [⟨(IPv4.render ⟨A, B, C, X⟩).data⟩, ⟨natReprAux Y⟩] :=
    goSplitChar_pair '-' _ _ hd1 hd2
  have hatoiP : goAtoi (⟨natReprAux P⟩ : String) = .ok (P : Int) := atoi_natRepr P
  have hatoiY : goAtoi (⟨natReprAux Y⟩ : String) = .ok (Y : Int) := atoi_natRepr Y
  have hip : goParseIPv4 (⟨(IPv4.render ⟨A, B, C, X⟩).data⟩ : String) = some ⟨A, B, C, X⟩ :=
    goParseIPv4_render A B C X hA hB hC hX
  unfold TryParseEndpoints
  rw [goSplitChar_single ',' _ hnocomma]
  unfold tryParseEndpointsLoop
  rw [hsplit2]
  simp only []
  rw [hatoiP]
  simp only []
  rw [hsplit3]
  simp only [List.length_cons, List.length_nil]
  rw [if_neg (by omega)]
  simp only [List.headD_cons]
  rw [hip]
  simp only []
  rw [show (([(⟨(IPv4.render ⟨A, B, C, X⟩).data⟩ : String), (⟨natReprAux Y⟩ : String)]).getD 1 "")
      = (⟨natReprAux Y⟩ : String) from rfl, hatoiY]
  rw [if_neg (by decide : ¬ ((0 + 1 + 1 : Nat) ≠ 2))]
  simp only [toU16_ofNat P hP, tryParseEndpointsLoop, List.nil_append]

/-- C9: on inputs `"A.B.C.X-Y:P"` (valid IPv4 `A.B.C.X`, numeric `P`),
`TryParseEndpoints` returns exactly `Y−X+1` endpoints on port `P` whose final
octets ascend from `X` to `Y`; it errors when `X > Y`, when `Y > 255`, and
when `Y` is missing (empty after the dash). -/
theorem tryParseEndpoints_range_law (A B C X Y P : Nat)
    (hA : A ≤ 255) (hB : B ≤ 255) (hC : C ≤ 255) (hX : X ≤ 255) (hP : P < 65536) :
    (X ≤ Y → Y ≤ 255 →
      TryParseEndpoints (IPv4.render ⟨A, B, C, X⟩ ++ "-" ++ natRepr Y ++ ":" ++ natRepr P)
        = .ok ((List.range' X (Y - X + 1)).map (fun i => ⟨some ⟨A, B, C, i⟩, P⟩))) ∧
    (Y < X →
      (TryParseEndpoints
        (IPv4.render ⟨A, B, C, X⟩ ++ "-" ++ natRepr Y ++ ":" ++ natRepr P)).isOk = false) ∧
    (255 < Y →
      (TryParseEndpoints
        (IPv4.render ⟨A, B, C, X⟩ ++ "-" ++ natRepr Y ++ ":" ++ natRepr P)).isOk = false) ∧
    (TryParseEndpoints (IPv4.render ⟨A, B, C, X⟩ ++ "-" ++ ":" ++ natRepr P)).isOk = false := by
  refine ⟨?_, ?_, ?_, ?_⟩
  · intro h1 h2
    rw [tpe_eval A B C X Y P hA hB hC hX hP]
    by_cases hxy : X = Y
    · subst hxy
      rw [if_neg (by omega : ¬ ((X : Int) > (X : Int))), if_pos rfl]
      simp [List.range'_one]
    · have hlt : X < Y := by omega
      rw [if_neg (by omega : ¬ ((X : Int) > (Y : Int))),
        if_neg (by omega : ¬ ((X : Int) = (Y : Int))),
        if_neg (by omega : ¬ ((Y : Int) > 255))]
      rw [show ((Y : Int)).toNat = Y from by omega,
        show Y - X + 1 = (Y - X) + 1 from rfl, List.range'_succ]
      simp
  · intro h
    rw [tpe_eval A B C X Y P hA hB hC hX hP, if_pos (by omega : (X : Int) > (Y : Int))]
    rfl
  · intro h
    have hlt : X < Y := by omega
    rw [tpe_eval A B C X Y P hA hB hC hX hP,
      if_neg (by omega : ¬ ((X : Int) > (Y : Int))),
      if_neg (by omega : ¬ ((X : Int) = (Y : Int))),
      if_pos (by omega : (Y : Int) > 255)]
    rfl
  · have hsd : (IPv4.render ⟨A, B, C, X⟩ ++ "-" ++ ":" ++ natRepr P).data
        = ((IPv4.render ⟨A, B, C, X⟩).data ++ '-' :: []) ++ ':' :: natReprAux P := by
      simp [String.data_append, natRepr_data, dash_data, colon_data]
    have hnocomma : ',' ∉ (IPv4.render ⟨A, B, C, X⟩ ++ "-" ++ ":" ++ natRepr P).data := by
      rw [hsd]
      intro hm
      rcases List.mem_append.mp hm with h | h
      · rcases List.mem_append.mp h with h2 | h2
        · rcases mem_ipRender A B C X ',' h2 with hd | hd
          · exact absurd hd (by decide)
          · exact absurd hd (by decide)
        · exact absurd (List.mem_singleton.mp h2) (by decide)
      · rcases List.mem_cons.mp h with h2 | h2
        · exact absurd h2 (by decide)
        · exact absurd (natReprAux_digits P ',' h2) (by decide)
    have hc1 : ':' ∉ (IPv4.render ⟨A, B, C, X⟩).data ++ '-' :: ([] : List Char) := by
      intro hm
      rcases List.mem_append.mp hm with h | h
      · rcases mem_ipRender A B C X ':' h with hd | hd
        · exact absurd hd (by decide)
        · exact absurd hd (by decide)
      · exact absurd (List.mem_singleton.mp h) (by decide)
    have hd1 : '-' ∉ (IPv4.render ⟨A, B, C, X⟩).data := by
      intro hm
      rcases mem_ipRender A B C X '-' hm with hd | hd
      · exact absurd hd (by decide)
      · exact absurd hd (by decide)
    have hsplit2 : goSplitChar ':' (IPv4.render ⟨A, B, C, X⟩ ++ "-" ++ ":" ++ natRepr P)
        = [⟨(IPv4.render ⟨A, B, C, X⟩).data ++ '-' :: []⟩, ⟨natReprAux P⟩] := by
      conv_lhs =>
        rw [show (IPv4.render ⟨A, B, C, X⟩ ++ "-" ++ ":" ++ natRepr P)
          = (⟨(IPv4.render ⟨A, B, C, X⟩ ++ "-" ++ ":" ++ natRepr P).data⟩ : String)
          from rfl, hsd]
      exact goSplitChar_pair ':' _ _ hc1 (not_mem_natReprAux (by decide) P)
    have hsplit3 : goSplitChar '-'
        (⟨(IPv4.render ⟨A, B, C, X⟩).data ++ '-' :: []⟩ : String)
        = [⟨(IPv4.render ⟨A, B, C, X⟩).data⟩, ⟨[]⟩] :=
      goSplitChar_pair '-' _ _ hd1 (by simp)
    have hatoiP : goAtoi (⟨natReprAux P⟩ : String) = .ok (P : Int) := atoi_natRepr P
    have hip : goParseIPv4 (⟨(IPv4.render ⟨A, B, C, X⟩).data⟩ : String) = some ⟨A, B, C, X⟩ :=
      goParseIPv4_render A B C X hA hB hC hX
    unfold TryParseEndpoints
    rw [goSplitChar_single ',' _ hnocomma]
    unfold tryParseEndpointsLoop
    rw [hsplit2]
    simp only []
    rw [hatoiP]
    simp only []
    rw [hsplit3]
    simp only [List.length_cons, List.length_nil]
    rw [if_neg (by omega)]
    simp only [List.headD_cons]
    rw [hip]
    simp only []
    rw [if_neg (by decide : ¬ ((0 + 1 + 1 : Nat) ≠ 2))]
    rfl

/-- The endpoint parser reproduces the repository's own range test
(`net_test.go`: `"192.168.0.5-9:80"`). -/
theorem tryParseEndpoints_golden :
    TryParseEndpoints "192.168.0.5-9:80" =
      .ok [⟨some ⟨192, 168, 0, 5⟩, 80⟩, ⟨some ⟨192, 168, 0, 6⟩, 80⟩,
           ⟨some ⟨192, 168, 0, 7⟩, 80⟩, ⟨some ⟨192, 168, 0, 8⟩, 80⟩,
           ⟨some ⟨192, 168, 0, 9⟩, 80⟩] := by decide

/-- Witness for C9 at the repository test's own range input. -/
theorem tryParseEndpoints_range_law_witness :
    ((192 : Nat) ≤ 255 ∧ (168 : Nat) ≤ 255 ∧ (0 : Nat) ≤ 255 ∧ (5 : Nat) ≤ 255 ∧
      (80 : Nat) < 65536) ∧
    ((5 ≤ 9 → 9 ≤ 255 →
        TryParseEndpoints (IPv4.render ⟨192, 168, 0, 5⟩ ++ "-" ++ natRepr 9 ++ ":" ++ natRepr 80)
          = .ok ((List.range' 5 (9 - 5 + 1)).map (fun i => ⟨some ⟨192, 168, 0, i⟩, 80⟩))) ∧
      (9 < 5 →
        (TryParseEndpoints
          (IPv4.render ⟨192, 168, 0, 5⟩ ++ "-" ++ natRepr 9 ++ ":" ++ natRepr 80)).isOk
          = false) ∧
      (255 < 9 →
        (TryParseEndpoints
          (IPv4.render ⟨192, 168, 0, 5⟩ ++ "-" ++ natRepr 9 ++ ":" ++ natRepr 80)).isOk
          = false) ∧
      (TryParseEndpoints (IPv4.render ⟨192, 168, 0, 5⟩ ++ "-" ++ ":" ++ natRepr 80)).isOk
        = false) :=
  ⟨⟨by decide, by decide, by decide, by decide, by decide⟩,
   tryParseEndpoints_range_law 192 168 0 5 9 80 (by decide) (by decide) (by decide) (by decide)
     (by decide)⟩

/-! ### Pearson permutation lemmas (for the CRC-rejection claim) -/

theorem pearsonTable_inv : ∀ i, i < 256 → pearsonTableInv.getD (pearsonTable.getD i 0) 0 = i := by
  decide

theorem pearsonTable_lt : ∀ i, i < 256 → pearsonTable.getD i 0 < 256 := by decide

theorem pearsonStep_lt (h c : Nat) : pearsonStep h c < 256 := by
  unfold pearsonStep
  by_cases hb : h ^^^ c < 256
  · exact pearsonTable_lt _ hb
  · rw [List.getD_eq_default _ _ (by simp [pearsonTable]; omega)]
    omega

theorem pearsonStep_inj {h c1 c2 : Nat} (hh : h < 256) (h1 : c1 < 256) (h2 : c2 < 256)
    (he : pearsonStep h c1 = pearsonStep h c2) : c1 = c2 := by
  have hx1 : h ^^^ c1 < 256 := Nat.xor_lt_two_pow (n := 8) hh h1
  have hx2 : h ^^^ c2 < 256 := Nat.xor_lt_two_pow (n := 8) hh h2
  have := pearsonTable_inv _ hx1
  rw [show pearsonTable.getD (h ^^^ c1) 0 = pearsonTable.getD (h ^^^ c2) 0 from he,
    pearsonTable_inv _ hx2] at this
  have hxy : h ^^^ c1 = h ^^^ c2 := this.symm
  have := congrArg (fun z => h ^^^ z) hxy
  simpa [← Nat.xor_assoc, Nat.xor_self, Nat.zero_xor] using this

theorem pearsonStep_ne_of_h_ne {h1 h2 c : Nat} (hh1 : h1 < 256) (hh2 : h2 < 256) (hc : c < 256)
    (hne : h1 ≠ h2) : pearsonStep h1 c ≠ pearsonStep h2 c := by
  intro he
  apply hne
  have hx1 : h1 ^^^ c < 256 := Nat.xor_lt_two_pow (n := 8) hh1 hc
  have hx2 : h2 ^^^ c < 256 := Nat.xor_lt_two_pow (n := 8) hh2 hc
  have := pearsonTable_inv _ hx1
  rw [show pearsonTable.getD (h1 ^^^ c) 0 = pearsonTable.getD (h2 ^^^ c) 0 from he,
    pearsonTable_inv _ hx2] at this
  have hxy : h1 ^^^ c = h2 ^^^ c := this.symm
  have h1e := Nat.xor_cancel_right c h1
  have h2e := Nat.xor_cancel_right c h2
  rw [← h1e, hxy, h2e]

theorem pearsonFold_ne : ∀ (l : List Nat), (∀ x ∈ l, x < 256) →
    ∀ h1 h2, h1 < 256 → h2 < 256 → h1 ≠ h2 → pearsonFold h1 l ≠ pearsonFold h2 l := by
  intro l
  induction l with
  | nil => exact fun _ h1 h2 _ _ hne => hne
  | cons c cs ih =>
    intro hb h1 h2 hh1 hh2 hne
    simp only [pearsonFold]
    exact ih (fun x hx => hb x (List.mem_cons_of_mem c hx)) _ _
      (pearsonStep_lt h1 c) (pearsonStep_lt h2 c)
      (pearsonStep_ne_of_h_ne hh1 hh2 (hb c (List.mem_cons_self ..)) hne)

theorem pearsonFold_set_ne : ∀ (l : List Nat) (j : Nat) (b' h : Nat),
    (∀ x ∈ l, x < 256) → b' < 256 → h < 256 → j < l.length → b' ≠ l.getD j 0 →
    pearsonFold h (l.set j b') ≠ pearsonFold h l := by
  intro l
  induction l with
  | nil =>
    intro j b' h _ _ _ hj
    simp at hj
  | cons c cs ih =>
    intro j b' h hb hb' hh hj hne
    match j with
    | 0 =>
      simp only [List.set_cons_zero, pearsonFold]
      apply pearsonFold_ne cs (fun x hx => hb x (List.mem_cons_of_mem c hx)) _ _
        (pearsonStep_lt h b') (pearsonStep_lt h c)
      intro he
      exact hne (pearsonStep_inj hh hb' (hb c (List.mem_cons_self ..)) he)
    | j0 + 1 =>
      simp only [List.set_cons_succ, pearsonFold]
      apply ih j0 b' (pearsonStep h c) (fun x hx => hb x (List.mem_cons_of_mem c hx)) hb'
        (pearsonStep_lt h c) (by simpa using hj) (by simpa using hne)

/-- Changing one in-range byte changes the Pearson hash (the table is a
permutation). -/
theorem pearsonHash_set_ne (l : List Nat) (j : Nat) (b' : Nat)
    (hb : ∀ x ∈ l, x < 256) (hb' : b' < 256) (hj : j < l.length) (hne : b' ≠ l.getD j 0) :
    PearsonHash (l.set j b') ≠ PearsonHash l :=
  pearsonFold_set_ne l j b' 0 hb hb' (by omega) hj hne

/-! ### Base64 roundtrip (for the codec claims) -/

theorem b64Val_chr : ∀ v, v < 64 → b64Val (b64Chr v) = some v := by decide

theorem b64Chr_ne_pad : ∀ v, v < 64 → b64Chr v ≠ '=' := by decide

theorem b64_roundtrip : ∀ (n : Nat) (bytes : List Nat), bytes.length ≤ n →
    (∀ b ∈ bytes, b < 256) → b64DecodeAux (b64EncodeAux bytes) = some bytes := by
  intro n
  induction n with
  | zero =>
    intro bytes hlen _
    have hnil : bytes = [] := List.length_eq_zero.mp (by omega)
    subst hnil
    rfl
  | succ n ih =>
    intro bytes hlen hb
    match bytes with
    | [] => rfl
    | [b1] =>
      have h1 : b1 < 256 := hb b1 (by simp)
      simp only [b64EncodeAux, b64DecodeAux,
        b64Val_chr (b1 / 4) (by omega), b64Val_chr (b1 % 4 * 16) (by omega)]
      simp
      all_goals omega
    | [b1, b2] =>
      have h1 : b1 < 256 := hb b1 (by simp)
      have h2 : b2 < 256 := hb b2 (by simp)
      simp only [b64EncodeAux, b64DecodeAux,
        b64Val_chr (b1 / 4) (by omega), b64Val_chr (b1 % 4 * 16 + b2 / 16) (by omega),
        if_neg (b64Chr_ne_pad (b2 % 16 * 4) (by omega)),
        b64Val_chr (b2 % 16 * 4) (by omega)]
      simp
      all_goals omega
    | b1 :: b2 :: b3 :: rest =>
      have h1 : b1 < 256 := hb b1 (by simp)
      have h2 : b2 < 256 := hb b2 (by simp)
      have h3 : b3 < 256 := hb b3 (by simp)
      have hrec := ih rest (by simp at hlen; omega)
        (fun b hbm => hb b (by simp [hbm]))
      simp only [b64EncodeAux, b64DecodeAux,
        b64Val_chr (b1 / 4) (by omega), b64Val_chr (b1 % 4 * 16 + b2 / 16) (by omega),
        if_neg (b64Chr_ne_pad (b2 % 16 * 4 + b3 / 64) (by omega)),
        b64Val_chr (b2 % 16 * 4 + b3 / 64) (by omega),
        if_neg (b64Chr_ne_pad (b3 % 64) (by omega)),
        b64Val_chr (b3 % 64) (by omega), hrec]
      simp
      all_goals omega

theorem pearsonFold_lt : ∀ (l : List Nat) (h : Nat), h < 256 → pearsonFold h l < 256 := by
  intro l
  induction l with
  | nil => exact fun h hh => hh
  | cons c cs ih => exact fun h _ => ih (pearsonStep h c) (pearsonStep_lt h c)

theorem pearsonHash_lt (l : List Nat) : PearsonHash l < 256 :=
  pearsonFold_lt l 0 (by omega)

theorem b64EncodeAux_length : ∀ (n : Nat) (bytes : List Nat), bytes.length ≤ n →
    (b64EncodeAux bytes).length = (bytes.length + 2) / 3 * 4 := by
  intro n
  induction n with
  | zero =>
    intro bytes hlen
    have hnil : bytes = [] := List.length_eq_zero.mp (by omega)
    subst hnil
    rfl
  | succ n ih =>
    intro bytes hlen
    match bytes with
    | [] => rfl
    | [b1] => simp [b64EncodeAux]
    | [b1, b2] => simp [b64EncodeAux]
    | b1 :: b2 :: b3 :: rest =>
      simp only [b64EncodeAux, List.length_cons]
      rw [ih rest (by simp at hlen; omega)]
      omega

/-- Common evaluation of `TryParseChainID` on a well-formed 28-character name
`"LB$-" ++ base64(bytes)` for payloads of 16 to 18 bytes (the three lengths a
24-character base64 remainder can decode to). -/
theorem tryParseChainID_eval (bytes : List Nat) (hlen1 : 16 ≤ bytes.length)
    (hlen2 : bytes.length ≤ 18) (hb : ∀ b ∈ bytes, b < 256) :
    TryParseChainID (chainIDMark ++ b64Encode bytes) =
      if PearsonHash ((bytes.drop 1).take 7) ≠ bytes.getD 0 0 then
        .error ("chain `" ++ (chainIDMark ++ b64Encode bytes) ++ "` has invalid CRC, got " ++
          natRepr (bytes.getD 0 0) ++ " expected " ++
          natRepr (PearsonHash ((bytes.drop 1).take 7)))
      else
        .ok ⟨bytes.getD 0 0, bytes.getD 1 0,
          ⟨bytes.getD 2 0, bytes.getD 3 0, bytes.getD 4 0, bytes.getD 5 0⟩,
          u16BE (bytes.getD 6 0) (bytes.getD 7 0),
          u32BE (bytes.getD 8 0) (bytes.getD 9 0) (bytes.getD 10 0) (bytes.getD 11 0),
          bytes.getD 12 0,
          u32BE (bytes.getD 13 0) (bytes.getD 14 0) (bytes.getD 15 0) (bytes.getD 16 0)⟩ := by
  have hdata : (chainIDMark ++ b64Encode bytes).data
      = 'L' :: 'B' :: '$' :: '-' :: b64EncodeAux bytes := by
    rw [String.data_append]
    rfl
  have henclen : (b64EncodeAux bytes).length = 24 := by
    rw [b64EncodeAux_length bytes.length bytes (le_refl _)]
    omega
  have hL : (chainIDMark ++ b64Encode bytes).length = 28 := by
    show (chainIDMark ++ b64Encode bytes).data.length = 28
    rw [hdata]
    simp [henclen]
  have htake : (chainIDMark ++ b64Encode bytes).data.take 4 = chainIDMark.data := by
    rw [hdata]
    rfl
  have hdrop : (chainIDMark ++ b64Encode bytes).data.drop 4 = b64EncodeAux bytes := by
    rw [hdata]
    rfl
  have hdec : b64Decode (⟨b64EncodeAux bytes⟩ : String) = some bytes :=
    b64_roundtrip bytes.length bytes (le_refl _) hb
  unfold TryParseChainID
  rw [hL, if_neg (by omega), htake, if_neg (by simp), hdrop, hdec]
  rfl

/-! ## C2: round-trip identity of the chain-identity codec -/

/-- C2: for every `ChainID` (one whose CRC field is the Pearson hash of its
protocol/ip/port bytes, i.e. any value `NewChainID` can produce, with fields
in their Go byte ranges), parsing its encoded name succeeds and returns the
same `ChainID` — same CRC, protocol, IPv4 address, port, lastUpdate, state
and contentHash. -/
theorem tryParseChainID_roundtrip (p : Nat) (ip : IPv4) (port lu st ch : Nat)
    (hp : p < 256) (hi0 : ip.b0 < 256) (hi1 : ip.b1 < 256) (hi2 : ip.b2 < 256)
    (hi3 : ip.b3 < 256) (hport : port < 65536) (hlu : lu < 4294967296) (hst : st < 256)
    (hch : ch < 4294967296) :
    TryParseChainID (NewChainID p ip port lu st ch).encodeName
      = .ok (NewChainID p ip port lu st ch) := by
  obtain ⟨i0, i1, i2, i3⟩ := ip
  have h0 : i0 < 256 := hi0
  have h1 : i1 < 256 := hi1
  have h2 : i2 < 256 := hi2
  have h3 : i3 < 256 := hi3
  have hbounds : ∀ b ∈ (NewChainID p ⟨i0, i1, i2, i3⟩ port lu st ch).payload, b < 256 := by
    intro b hbm
    simp only [NewChainID, ChainID.payload, List.mem_cons, List.not_mem_nil, or_false] at hbm
    rcases hbm with h|h|h|h|h|h|h|h|h|h|h|h|h|h|h|h|h <;> subst h
    all_goals first
      | exact pearsonHash_lt _
      | omega
  rw [show (NewChainID p ⟨i0, i1, i2, i3⟩ port lu st ch).encodeName
      = chainIDMark ++ b64Encode (NewChainID p ⟨i0, i1, i2, i3⟩ port lu st ch).payload
      from rfl,
    tryParseChainID_eval _ (by simp [NewChainID, ChainID.payload])
      (by simp [NewChainID, ChainID.payload]) hbounds]
  simp only [NewChainID, ChainID.payload, crcBytes, List.drop_succ_cons, List.drop_zero,
    List.take_succ_cons, List.take_zero, List.getD_cons_zero, List.getD_cons_succ]
  rw [if_neg (by simp)]
  have e1 : port / 256 % 256 * 256 + port % 256 = port := by omega
  have e2 : ((lu / 16777216 % 256 * 256 + lu / 65536 % 256) * 256 + lu / 256 % 256) * 256 +
      lu % 256 = lu := by omega
  have e3 : ((ch / 16777216 % 256 * 256 + ch / 65536 % 256) * 256 + ch / 256 % 256) * 256 +
      ch % 256 = ch := by omega
  simp [u16BE, u32BE, e1, e2, e3]

/-- Witness for C2 at the repository's golden test values (`chainid_test.go`:
udp, 192.168.42.69:1337, lastUpdate 2^32−1, state Created, contentHash
42133742). -/
theorem tryParseChainID_roundtrip_witness :
    ((2 : Nat) < 256 ∧ (192 : Nat) < 256 ∧ (168 : Nat) < 256 ∧ (42 : Nat) < 256 ∧
      (69 : Nat) < 256 ∧ (1337 : Nat) < 65536 ∧ (4294967295 : Nat) < 4294967296 ∧
      ChainCreated < 256 ∧ (42133742 : Nat) < 4294967296) ∧
    TryParseChainID (NewChainID 2 ⟨192, 168, 42, 69⟩ 1337 4294967295 ChainCreated
        42133742).encodeName
      = .ok (NewChainID 2 ⟨192, 168, 42, 69⟩ 1337 4294967295 ChainCreated 42133742) :=
  ⟨⟨by decide, by decide, by decide, by decide, by decide, by decide, by decide, by decide,
    by decide⟩,
   tryParseChainID_roundtrip 2 ⟨192, 168, 42, 69⟩ 1337 4294967295 ChainCreated 42133742
     (by decide) (by decide) (by decide) (by decide) (by decide) (by decide) (by decide)
     (by decide) (by decide)⟩

/-! ## C3: CRC rejection of single-byte changes -/

theorem payload_bytes_lt (p i0 i1 i2 i3 port lu st ch : Nat) (hp : p < 256) (h0 : i0 < 256)
    (h1 : i1 < 256) (h2 : i2 < 256) (h3 : i3 < 256) (hport : port < 65536) (hst : st < 256) :
    ∀ b ∈ (NewChainID p ⟨i0, i1, i2, i3⟩ port lu st ch).payload, b < 256 := by
  intro b hbm
  simp only [NewChainID, ChainID.payload, List.mem_cons, List.not_mem_nil, or_false] at hbm
  rcases hbm with h|h|h|h|h|h|h|h|h|h|h|h|h|h|h|h|h <;> subst h
  all_goals first
    | exact pearsonHash_lt _
    | omega

/-- C3: for every well-formed `ChainID`, overwriting any single byte among
bytes 1..7 of its 17-byte payload (protocol byte, four IPv4 bytes, two
big-endian port bytes) with a different byte and re-encoding the name (the
`LB$-` marker plus standard base64) makes `TryParseChainID` fail with an
invalid-CRC error whose message reports the CRC byte found in the name and
the recomputed expected CRC byte. -/
theorem tryParseChainID_crc_rejects_byte_change (p : Nat) (ip : IPv4)
    (port lu st ch j b' : Nat) (hp : p < 256) (hi0 : ip.b0 < 256) (hi1 : ip.b1 < 256)
    (hi2 : ip.b2 < 256) (hi3 : ip.b3 < 256) (hport : port < 65536) (hlu : lu < 4294967296)
    (hst : st < 256) (hch : ch < 4294967296) (hj1 : 1 ≤ j) (hj7 : j ≤ 7) (hb' : b' < 256)
    (hne : b' ≠ (NewChainID p ip port lu st ch).payload.getD j 0) :
    TryParseChainID
        (chainIDMark ++ b64Encode ((NewChainID p ip port lu st ch).payload.set j b'))
      = .error ("chain `" ++
          (chainIDMark ++ b64Encode ((NewChainID p ip port lu st ch).payload.set j b')) ++
          "` has invalid CRC, got " ++ natRepr (NewChainID p ip port lu st ch).CRC ++
          " expected " ++
          natRepr (PearsonHash
            ((((NewChainID p ip port lu st ch).payload.set j b').drop 1).take 7))) := by
  obtain ⟨i0, i1, i2, i3⟩ := ip
  have h0 : i0 < 256 := hi0
  have h1 : i1 < 256 := hi1
  have h2 : i2 < 256 := hi2
  have h3 : i3 < 256 := hi3
  have hbl : ∀ x ∈ [p, i0, i1, i2, i3, port / 256 % 256, port % 256], x < 256 := by
    intro x hx
    simp only [List.mem_cons, List.not_mem_nil, or_false] at hx
    rcases hx with h|h|h|h|h|h|h <;> subst h <;> omega
  have hbounds : ∀ b ∈ (NewChainID p ⟨i0, i1, i2, i3⟩ port lu st ch).payload.set j b',
      b < 256 := by
    intro b hbm
    rcases List.mem_or_eq_of_mem_set hbm with hmem | heq
    · exact payload_bytes_lt p i0 i1 i2 i3 port lu st ch hp h0 h1 h2 h3 hport hst b hmem
    · omega
  have hlen1 : 16 ≤ ((NewChainID p ⟨i0, i1, i2, i3⟩ port lu st ch).payload.set j b').length := by
    simp [NewChainID, ChainID.payload]
  have hlen2 : ((NewChainID p ⟨i0, i1, i2, i3⟩ port lu st ch).payload.set j b').length ≤ 18 := by
    simp [NewChainID, ChainID.payload]
  rw [tryParseChainID_eval _ hlen1 hlen2 hbounds]
  interval_cases j
  · split
    · rfl
    · rename_i hcond
      exact absurd (pearsonHash_set_ne [p, i0, i1, i2, i3, port / 256 % 256, port % 256] 0 b'
        hbl hb' (by simp) hne) hcond
  · split
    · rfl
    · rename_i hcond
      exact absurd (pearsonHash_set_ne [p, i0, i1, i2, i3, port / 256 % 256, port % 256] 1 b'
        hbl hb' (by simp) hne) hcond
  · split
    · rfl
    · rename_i hcond
      exact absurd (pearsonHash_set_ne [p, i0, i1, i2, i3, port / 256 % 256, port % 256] 2 b'
        hbl hb' (by simp) hne) hcond
  · split
    · rfl
    · rename_i hcond
      exact absurd (pearsonHash_set_ne [p, i0, i1, i2, i3, port / 256 % 256, port % 256] 3 b'
        hbl hb' (by simp) hne) hcond
  · split
    · rfl
    · rename_i hcond
      exact absurd (pearsonHash_set_ne [p, i0, i1, i2, i3, port / 256 % 256, port % 256] 4 b'
        hbl hb' (by simp) hne) hcond
  · split
    · rfl
    · rename_i hcond
      exact absurd (pearsonHash_set_ne [p, i0, i1, i2, i3, port / 256 % 256, port % 256] 5 b'
        hbl hb' (by simp) hne) hcond
  · split
    · rfl
    · rename_i hcond
      exact absurd (pearsonHash_set_ne [p, i0, i1, i2, i3, port / 256 % 256, port % 256] 6 b'
        hbl hb' (by simp) hne) hcond

theorem tryParseChainID_crc_rejects_byte_change_witness :
    (3 : Nat) ≠ (NewChainID 2 ⟨192, 168, 42, 69⟩ 1337 4294967295 1 42133742).payload.getD 1 0 ∧
    TryParseChainID
        (chainIDMark ++
          b64Encode ((NewChainID 2 ⟨192, 168, 42, 69⟩ 1337 4294967295 1 42133742).payload.set 1 3))
      = .error ("chain `" ++
          (chainIDMark ++
            b64Encode
              ((NewChainID 2 ⟨192, 168, 42, 69⟩ 1337 4294967295 1 42133742).payload.set 1 3)) ++
          "` has invalid CRC, got " ++
          natRepr (NewChainID 2 ⟨192, 168, 42, 69⟩ 1337 4294967295 1 42133742).CRC ++
          " expected " ++
          natRepr (PearsonHash
            ((((NewChainID 2 ⟨192, 168, 42, 69⟩ 1337 4294967295 1 42133742).payload.set 1 3).drop
              1).take 7))) :=
  ⟨by decide,
    tryParseChainID_crc_rejects_byte_change 2 ⟨192, 168, 42, 69⟩ 1337 4294967295 1 42133742 1 3
      (by decide) (by decide) (by decide) (by decide) (by decide) (by decide) (by decide)
      (by decide) (by decide) (by decide) (by decide) (by decide) (by decide)⟩

/-! ## C4: totality of TryParseChainID on short base64 decodes -/

/-- C4: `TryParseChainID` is total on short decodes, but a 28-character name whose
base64 part decodes to only 16 bytes (a name ending in `==`) is NOT rejected: Go's
`base64.StdEncoding.DecodeString` allocates an 18-byte buffer and returns a
length-16 slice of it, so `data[13:17]` is a legal in-capacity slice whose final
byte reads as 0. If the CRC matches, parsing SUCCEEDS with a zero-extended
`ContentHash`. -/
theorem tryParseChainID_short_decode (bytes : List Nat) (hlen : bytes.length = 16)
    (hb : ∀ b ∈ bytes, b < 256)
    (hcrc : PearsonHash ((bytes.drop 1).take 7) = bytes.getD 0 0) :
    TryParseChainID (chainIDMark ++ b64Encode bytes) =
      .ok ⟨bytes.getD 0 0, bytes.getD 1 0,
        ⟨bytes.getD 2 0, bytes.getD 3 0, bytes.getD 4 0, bytes.getD 5 0⟩,
        u16BE (bytes.getD 6 0) (bytes.getD 7 0),
        u32BE (bytes.getD 8 0) (bytes.getD 9 0) (bytes.getD 10 0) (bytes.getD 11 0),
        bytes.getD 12 0,
        u32BE (bytes.getD 13 0) (bytes.getD 14 0) (bytes.getD 15 0) 0⟩ := by
  have h16 : bytes.getD 16 0 = 0 := List.getD_eq_default _ _ (by omega)
  rw [tryParseChainID_eval bytes (by omega) (by omega) hb,
    if_neg (by simp only [ne_eq, not_not]; exact hcrc), h16]

theorem tryParseChainID_short_decode_cex :
    TryParseChainID "LB$-/QAAAAAAAAAAAAAAAAAAAA==" =
      .ok ⟨253, 0, ⟨0, 0, 0, 0⟩, 0, 0, 0, 0⟩ := by decide

theorem tryParseChainID_short_decode_witness :
    TryParseChainID
        (chainIDMark ++
          b64Encode [253, 0, 0, 0, 0, 0, 0, 0, 0, 0, 0, 0, 0, 0, 0, 0]) =
      .ok ⟨253, 0, ⟨0, 0, 0, 0⟩, 0, 0, 0, 0⟩ := by
  have h := tryParseChainID_short_decode [253, 0, 0, 0, 0, 0, 0, 0, 0, 0, 0, 0, 0, 0, 0, 0]
    (by decide) (by decide) (by decide)
  simpa [u16BE, u32BE] using h

/-! ## C5: createChainForLB appends exactly N DNAT rules in order -/

/-- The `--every i` statistic rule of one fan-out pass (`controller.go`,
`createChainForLB` loop body). -/
def dnatRuleEvery (lb : Loadbalancer) (i : Nat) : String :=
  "-p " ++ protoString lb.Protocol ++ " -d " ++ optIPRender lb.Input.ip ++
  " --dport " ++ natRepr lb.Input.port ++ " -m statistic --mode nth --every " ++
  natRepr i ++ " --packet 0 -j DNAT --to-destination " ++
  (lb.Outputs.getD (i - 1) default).render

/-- The final catch-all DNAT rule (`createChainForLB`, after the loop). -/
def dnatCatchAll (lb : Loadbalancer) : String :=
  "-p " ++ protoString lb.Protocol ++ " -d " ++ optIPRender lb.Input.ip ++
  " --dport " ++ natRepr lb.Input.port ++ " -j DNAT --to-destination " ++
  (lb.Outputs.getD 0 default).render

/-- The `--every` rules emitted by the fan-out loop started at `i`. -/
def everyRulesDown (lb : Loadbalancer) : Nat → List String
  | 0 => []
  | 1 => []
  | i + 2 => dnatRuleEvery lb (i + 2) :: everyRulesDown lb (i + 1)

/-- All DNAT rules `createChainForLB` appends for `lb`, in order. -/
def expectedDnatRules (lb : Loadbalancer) : List String :=
  everyRulesDown lb lb.Outputs.length ++ [dnatCatchAll lb]

lemma fails_nil (e : Env) : fails [] e = false := rfl

lemma tblHas_eq_false_of_none {tbl : List (String × List String)} {c : String}
    (h : tblGet tbl c = none) : tblHas tbl c = false := by
  simp only [tblGet, Option.map_eq_none'] at h
  simp only [tblHas, List.any_eq_false]
  intro p hp
  simpa using List.find?_eq_none.mp h p hp

lemma tblGet_cons (p : String × List String) (rest : List (String × List String)) (c : String) :
    tblGet (p :: rest) c = if p.1 = c then some p.2 else tblGet rest c := by
  by_cases hc : p.1 = c
  · simp [tblGet, List.find?_cons, hc]
  · simp [tblGet, List.find?_cons, hc]

lemma tblGet_append_self (tbl : List (String × List String)) (c : String) (rs : List String)
    (h : tblGet tbl c = none) : tblGet (tbl ++ [(c, rs)]) c = some rs := by
  induction tbl with
  | nil => simp [tblGet]
  | cons p rest ih =>
    rw [tblGet_cons] at h
    by_cases hc : p.1 = c
    · simp [hc] at h
    · rw [if_neg hc] at h
      rw [List.cons_append, tblGet_cons, if_neg hc]
      exact ih h

lemma tblGet_tblSet_self (tbl : List (String × List String)) (c : String) (rs rs' : List String)
    (h : tblGet tbl c = some rs) : tblGet (tblSet tbl c rs') c = some rs' := by
  induction tbl with
  | nil => simp [tblGet] at h
  | cons p rest ih =>
    rw [tblGet_cons] at h
    by_cases hc : p.1 = c
    · simp only [tblSet, List.map_cons, if_pos hc]
      rw [tblGet_cons, if_pos hc]
    · rw [if_neg hc] at h
      simp only [tblSet, List.map_cons, if_neg hc]
      rw [tblGet_cons, if_neg hc]
      exact ih h

/-- The fan-out loop under a failure-free driver: every pass succeeds, the
trace grows by exactly the `--every` appends of `everyRulesDown`, and the
chain stays present. -/
lemma fanoutLoop_ok_trace (lb : Loadbalancer) (cn : String) :
    ∀ (i : Nat) (e : Env) (rs : List String), tblGet e.nt cn = some rs →
      (fanoutLoop [] lb cn i e).1 = .ok () ∧
      (fanoutLoop [] lb cn i e).2.trace =
        e.trace ++ (everyRulesDown lb i).map
          (fun r => Op.appendRule .nat cn (goSplitChar ' ' r)) ∧
      (∃ rs', tblGet (fanoutLoop [] lb cn i e).2.nt cn = some rs') ∧
      (fanoutLoop [] lb cn i e).2.ft = e.ft
  | 0, e, rs, h => by
    refine ⟨rfl, by simp [fanoutLoop, everyRulesDown], ⟨rs, h⟩, rfl⟩
  | 1, e, rs, h => by
    refine ⟨rfl, by simp [fanoutLoop, everyRulesDown], ⟨rs, h⟩, rfl⟩
  | i + 2, e, rs, h => by
    have hrule :
        ("-p " ++ protoString lb.Protocol ++ " -d " ++ optIPRender lb.Input.ip ++
         " --dport " ++ natRepr lb.Input.port ++ " -m statistic --mode nth --every " ++
         natRepr (i + 2) ++ " --packet 0 -j DNAT --to-destination " ++
         (lb.Outputs.getD (i + 1) default).render) = dnatRuleEvery lb (i + 2) := by
      simp [dnatRuleEvery]
    have hstep :
        iptAppend [] .nat cn (goSplitChar ' ' (dnatRuleEvery lb (i + 2))) e =
          (.ok (), { e with
            cnt := e.cnt + 1,
            trace := e.trace ++ [Op.appendRule .nat cn (goSplitChar ' ' (dnatRuleEvery lb (i + 2)))],
            nt := tblSet e.nt cn
              (rs ++ [goJoin " " (goSplitChar ' ' (dnatRuleEvery lb (i + 2)))]) }) := by
      simp [iptAppend, fails_nil, Env.table, h, Env.emit, Env.setTable]
    have hget2 := tblGet_tblSet_self e.nt cn rs
      (rs ++ [goJoin " " (goSplitChar ' ' (dnatRuleEvery lb (i + 2)))]) h
    obtain ⟨ih1, ih2, ih3, ih4⟩ := fanoutLoop_ok_trace lb cn (i + 1)
      { e with
        cnt := e.cnt + 1,
        trace := e.trace ++ [Op.appendRule .nat cn (goSplitChar ' ' (dnatRuleEvery lb (i + 2)))],
        nt := tblSet e.nt cn
          (rs ++ [goJoin " " (goSplitChar ' ' (dnatRuleEvery lb (i + 2)))]) }
      _ hget2
    rw [show fanoutLoop [] lb cn (i + 2) e =
      fanoutLoop [] lb cn (i + 1)
        { e with
          cnt := e.cnt + 1,
          trace := e.trace ++
            [Op.appendRule .nat cn (goSplitChar ' ' (dnatRuleEvery lb (i + 2)))],
          nt := tblSet e.nt cn
            (rs ++ [goJoin " " (goSplitChar ' ' (dnatRuleEvery lb (i + 2)))]) } by
      rw [fanoutLoop, hrule, hstep]]
    refine ⟨ih1, ?_, ih3, ih4⟩
    rw [ih2]
    simp [everyRulesDown]

lemma everyRulesDown_length (lb : Loadbalancer) :
    ∀ i, (everyRulesDown lb i).length = i - 1
  | 0 => rfl
  | 1 => rfl
  | i + 2 => by
    simp only [everyRulesDown, List.length_cons, everyRulesDown_length lb (i + 1)]
    omega

lemma everyRulesDown_closed (lb : Loadbalancer) :
    ∀ i, everyRulesDown lb i =
      (List.range (i - 1)).map (fun k => dnatRuleEvery lb (i - k))
  | 0 => by simp [everyRulesDown]
  | 1 => by simp [everyRulesDown]
  | i + 2 => by
    rw [everyRulesDown, everyRulesDown_closed lb (i + 1)]
    have h2 : i + 2 - 1 = i + 1 := by omega
    have h1 : i + 1 - 1 = i := by omega
    rw [h2, h1, List.range_succ_eq_map, List.map_cons, List.map_map]
    refine congrArg₂ _ (by simp) ?_
    refine List.map_congr_left ?_
    intro k _
    simp only [Function.comp]
    refine congrArg (dnatRuleEvery lb) ?_
    omega

lemma iptNewChain_ok (cn : String) (e : Env) (h : tblGet e.nt cn = none) :
    (iptNewChain [] .nat cn e).1 = .ok () ∧
    (iptNewChain [] .nat cn e).2.trace = e.trace ++ [Op.newChain .nat cn] ∧
    tblGet (iptNewChain [] .nat cn e).2.nt cn = some [] := by
  simp [iptNewChain, fails_nil, Env.table, tblHas_eq_false_of_none h, Env.emit, Env.setTable,
    tblGet_append_self e.nt cn [] h]

lemma iptAppend_ok (cn : String) (args : List String) (e : Env) (rs : List String)
    (h : tblGet e.nt cn = some rs) :
    (iptAppend [] .nat cn args e).1 = .ok () ∧
    (iptAppend [] .nat cn args e).2.trace = e.trace ++ [Op.appendRule .nat cn args] ∧
    tblGet (iptAppend [] .nat cn args e).2.nt cn = some (rs ++ [goJoin " " args]) := by
  simp [iptAppend, fails_nil, Env.table, h, Env.emit, Env.setTable,
    tblGet_tblSet_self e.nt cn rs (rs ++ [goJoin " " args]) h]

lemma iptList_ok (cn : String) (e : Env) (rs : List String)
    (h : tblGet e.nt cn = some rs) :
    (iptList [] .nat cn e).1 =
      .ok (("-N " ++ cn) :: rs.map (fun r => "-A " ++ cn ++ " " ++ r)) ∧
    (iptList [] .nat cn e).2.trace = e.trace ++ [Op.listRules .nat cn] ∧
    (iptList [] .nat cn e).2.nt = e.nt := by
  simp [iptList, fails_nil, Env.table, h, Env.emit]

lemma iptRenameChain_nat_trace (a b : String) (e : Env) :
    (iptRenameChain [] .nat a b e).2.trace = e.trace ++ [Op.renameChain .nat a b] := by
  simp only [iptRenameChain, fails_nil, Env.table, Env.emit, Env.setTable]
  split_ifs <;> rfl

/-- C5: under a failure-free driver, for a loadbalancer with `N >= 1` outputs
whose Creating-state chain name is not yet present in the nat table,
`createChainForLB` appends exactly `N` DNAT rules to the new chain, in
order: for `i` from `N` down to `2` the
`-m statistic --mode nth --every i --packet 0` rule targeting
`outputs[i-1]`, and last the catch-all DNAT rule targeting `outputs[0]`
(the trace shows the chain creation, then exactly these `N` appends, then
the listing and the rename that commits the Created name). -/
theorem createChainForLB_fanout_rules (lb : Loadbalancer) (e : Env)
    (hout : 1 ≤ lb.Outputs.length)
    (hfresh : tblGet e.nt (lb.GetChainID ChainCreating 0).encodeName = none) :
    ∃ newName,
      (createChainForLB [] lb e).2.trace =
        e.trace ++
          Op.newChain .nat (lb.GetChainID ChainCreating 0).encodeName ::
          ((expectedDnatRules lb).map (fun r =>
            Op.appendRule .nat (lb.GetChainID ChainCreating 0).encodeName
              (goSplitChar ' ' r)) ++
          [Op.listRules .nat (lb.GetChainID ChainCreating 0).encodeName,
           Op.renameChain .nat (lb.GetChainID ChainCreating 0).encodeName newName]) ∧
      (expectedDnatRules lb).length = lb.Outputs.length ∧
      expectedDnatRules lb =
        ((List.range (lb.Outputs.length - 1)).map
          (fun k => dnatRuleEvery lb (lb.Outputs.length - k))) ++ [dnatCatchAll lb] := by
  have hlen : (expectedDnatRules lb).length = lb.Outputs.length := by
    simp [expectedDnatRules, everyRulesDown_length]
    omega
  have hclosed : expectedDnatRules lb =
      ((List.range (lb.Outputs.length - 1)).map
        (fun k => dnatRuleEvery lb (lb.Outputs.length - k))) ++ [dnatCatchAll lb] := by
    rw [expectedDnatRules, everyRulesDown_closed]
  have h0 : ¬ (lb.Outputs.length = 0) := by omega
  simp only [createChainForLB, if_neg h0]
  obtain ⟨o1, t1, g1⟩ := iptNewChain_ok (lb.GetChainID ChainCreating 0).encodeName e hfresh
  rcases h1 : iptNewChain [] .nat (lb.GetChainID ChainCreating 0).encodeName e with ⟨r1, e1⟩
  rw [h1] at o1 t1 g1
  dsimp only at o1 t1 g1
  subst o1
  simp only [h1]
  obtain ⟨o2, t2, ⟨rs2, g2⟩, _⟩ := fanoutLoop_ok_trace lb
    (lb.GetChainID ChainCreating 0).encodeName lb.Outputs.length e1 [] g1
  rcases h2 : fanoutLoop [] lb (lb.GetChainID ChainCreating 0).encodeName
      lb.Outputs.length e1 with ⟨r2, e2⟩
  rw [h2] at o2 t2 g2
  dsimp only at o2 t2 g2
  subst o2
  simp only [h2]
  have hfold : ("-p " ++ protoString lb.Protocol ++ " -d " ++ optIPRender lb.Input.ip ++
      " --dport " ++ natRepr lb.Input.port ++ " -j DNAT --to-destination " ++
      (lb.Outputs.getD 0 default).render) = dnatCatchAll lb := rfl
  rw [hfold]
  obtain ⟨o3, t3, g3⟩ := iptAppend_ok (lb.GetChainID ChainCreating 0).encodeName
    (goSplitChar ' ' (dnatCatchAll lb)) e2 rs2 g2
  rcases h3 : iptAppend [] .nat (lb.GetChainID ChainCreating 0).encodeName
      (goSplitChar ' ' (dnatCatchAll lb)) e2 with ⟨r3, e3⟩
  rw [h3] at o3 t3 g3
  dsimp only at o3 t3 g3
  subst o3
  simp only [h3]
  obtain ⟨o4, t4, _⟩ := iptList_ok (lb.GetChainID ChainCreating 0).encodeName e3 _ g3
  rcases h4 : iptList [] .nat (lb.GetChainID ChainCreating 0).encodeName e3 with ⟨r4, e4⟩
  rw [h4] at o4 t4
  dsimp only at o4 t4
  subst o4
  simp only [h4]
  have t5 := iptRenameChain_nat_trace (lb.GetChainID ChainCreating 0).encodeName
    ((lb.GetChainID ChainCreated (calculateHashForRules
      (("-N " ++ (lb.GetChainID ChainCreating 0).encodeName) ::
        (rs2 ++ [goJoin " " (goSplitChar ' ' (dnatCatchAll lb))]).map
          (fun r => "-A " ++ (lb.GetChainID ChainCreating 0).encodeName ++ " " ++ r)))).encodeName)
    e4
  rcases h5 : iptRenameChain [] .nat (lb.GetChainID ChainCreating 0).encodeName
      ((lb.GetChainID ChainCreated (calculateHashForRules
        (("-N " ++ (lb.GetChainID ChainCreating 0).encodeName) ::
          (rs2 ++ [goJoin " " (goSplitChar ' ' (dnatCatchAll lb))]).map
            (fun r => "-A " ++ (lb.GetChainID ChainCreating 0).encodeName ++ " " ++ r)))).encodeName)
      e4 with ⟨r5, e5⟩
  rw [h5] at t5
  dsimp only at t5
  refine ⟨(lb.GetChainID ChainCreated (calculateHashForRules
    (("-N " ++ (lb.GetChainID ChainCreating 0).encodeName) ::
      (rs2 ++ [goJoin " " (goSplitChar ' ' (dnatCatchAll lb))]).map
        (fun r => "-A " ++ (lb.GetChainID ChainCreating 0).encodeName ++ " " ++ r)))).encodeName,
    ?_, hlen, hclosed⟩
  cases r5
  all_goals
    show e5.trace = _
    rw [t5, t4, t3, t2, t1]
    simp [expectedDnatRules, List.map_append, List.append_assoc]

def lbW5 : Loadbalancer :=
  ⟨12345, 1, ⟨some ⟨10, 0, 0, 1⟩, 80⟩,
    [⟨some ⟨10, 0, 0, 2⟩, 8080⟩, ⟨some ⟨10, 0, 0, 3⟩, 8080⟩, ⟨some ⟨10, 0, 0, 4⟩, 8080⟩]⟩

def envW5 : Env := ⟨[], [], 0, []⟩

theorem createChainForLB_fanout_rules_witness :
    1 ≤ lbW5.Outputs.length ∧
    tblGet envW5.nt (lbW5.GetChainID ChainCreating 0).encodeName = none ∧
    ∃ newName,
      (createChainForLB [] lbW5 envW5).2.trace =
        envW5.trace ++
          Op.newChain .nat (lbW5.GetChainID ChainCreating 0).encodeName ::
          ((expectedDnatRules lbW5).map (fun r =>
            Op.appendRule .nat (lbW5.GetChainID ChainCreating 0).encodeName
              (goSplitChar ' ' r)) ++
          [Op.listRules .nat (lbW5.GetChainID ChainCreating 0).encodeName,
           Op.renameChain .nat (lbW5.GetChainID ChainCreating 0).encodeName newName]) ∧
      (expectedDnatRules lbW5).length = lbW5.Outputs.length ∧
      expectedDnatRules lbW5 =
        ((List.range (lbW5.Outputs.length - 1)).map
          (fun k => dnatRuleEvery lbW5 (lbW5.Outputs.length - k))) ++ [dnatCatchAll lbW5] :=
  ⟨by decide, rfl, createChainForLB_fanout_rules lbW5 envW5 (by decide) rfl⟩

/-! ## C7: T10 safety-skip leaves the tables unchanged -/

lemma iptList_env (F : List Nat) (t : Table) (c : String) (e : Env) :
    (iptList F t c e).2 = e.emit (.listRules t c) := by
  simp only [iptList]
  split_ifs
  · rfl
  · cases tblGet (e.table t) c <;> rfl

lemma gatherReferencedEndpoints_tables (F : List Nat) :
    ∀ (l : List ChainID) (acc : List String) (e : Env),
      (gatherReferencedEndpoints F l acc e).2.nt = e.nt ∧
      (gatherReferencedEndpoints F l acc e).2.ft = e.ft
  | [], acc, e => ⟨rfl, rfl⟩
  | cid :: rest, acc, e => by
    rw [gatherReferencedEndpoints]
    rcases h1 : iptList F .nat cid.encodeName e with ⟨r1, e1⟩
    have he1 : e1 = e.emit (.listRules .nat cid.encodeName) := by
      have h := iptList_env F .nat cid.encodeName e
      rw [h1] at h
      exact h
    cases r1 with
    | error err => simp [he1, Env.emit]
    | ok rules =>
      cases h2 : gatherChainEndpoints cid.encodeName rules acc with
      | error err => simp [h2, he1, Env.emit]
      | ok acc1 =>
        have ih := gatherReferencedEndpoints_tables F rest acc1 e1
        simp only [h2]
        refine ⟨?_, ?_⟩
        · rw [ih.1, he1]
          rfl
        · rw [ih.2, he1]
          rfl

/-- C7: if the forward-chain listing fails, or gathering the referenced
`--to-destination` endpoints fails (a listing error on one of our chains, or
a rule without a parseable endpoint), T10 leaves both iptables tables and the
registry untouched: no forward rule is deleted. -/
theorem deleteObsoleteForwardChainEntries_safety_skip
    (F : List Nat) (ac : List String) (chainIDs : List ChainID)
    (l2c : List (String × List ChainID)) (e : Env) (c : Ctrl)
    (h : (∃ err e1, iptList F .filter forwardChainName e = (.error err, e1)) ∨
         (∃ rules e1 err e2, iptList F .filter forwardChainName e = (.ok rules, e1) ∧
            gatherReferencedEndpoints F chainIDs [] e1 = (.error err, e2))) :
    (deleteObsoleteForwardChainEntries F ac chainIDs l2c e c).1.nt = e.nt ∧
    (deleteObsoleteForwardChainEntries F ac chainIDs l2c e c).1.ft = e.ft ∧
    (deleteObsoleteForwardChainEntries F ac chainIDs l2c e c).2 = c := by
  rcases h with ⟨err, e1, h1⟩ | ⟨rules, e1, err, e2, h1, h2⟩
  · have he1 : e1 = e.emit (.listRules .filter forwardChainName) := by
      have h := iptList_env F .filter forwardChainName e
      rw [h1] at h
      exact h
    simp [deleteObsoleteForwardChainEntries, h1, he1, Env.emit]
  · have he1 : e1 = e.emit (.listRules .filter forwardChainName) := by
      have h := iptList_env F .filter forwardChainName e
      rw [h1] at h
      exact h
    have hg := gatherReferencedEndpoints_tables F chainIDs [] e1
    rw [h2] at hg
    simp only [deleteObsoleteForwardChainEntries, h1, h2]
    refine ⟨?_, ?_, trivial⟩
    · rw [hg.1, he1]
      rfl
    · rw [hg.2, he1]
      rfl

def envW7 : Env := ⟨[], [], 0, []⟩

theorem deleteObsoleteForwardChainEntries_safety_skip_witness :
    (deleteObsoleteForwardChainEntries [] [] [] [] envW7 ⟨[]⟩).1.nt = envW7.nt ∧
    (deleteObsoleteForwardChainEntries [] [] [] [] envW7 ⟨[]⟩).1.ft = envW7.ft ∧
    (deleteObsoleteForwardChainEntries [] [] [] [] envW7 ⟨[]⟩).2 = (⟨[]⟩ : Ctrl) :=
  deleteObsoleteForwardChainEntries_safety_skip [] [] [] [] envW7 ⟨[]⟩
    (Or.inl ⟨"No chain/target/match by that name", envW7.emit (.listRules .filter forwardChainName),
      by decide⟩)

/-! ## C8: registry invariant (every stored record has outputs) -/

/-- The registry invariant: no stored record has an empty `Outputs`. -/
def RegInv (c : Ctrl) : Prop := ∀ p ∈ c.loadbalancers, p.2.Outputs ≠ []

/-- Controller states reachable from the empty registry by the public
operations and `sync`. -/
inductive Reach : Ctrl → Prop
  | empty : Reach ⟨[]⟩
  | upsert (c : Ctrl) (lb : Loadbalancer) (now : Nat) :
      Reach c → Reach (UpsertLoadbalancer c lb now)
  | del (c : Ctrl) (lb : Loadbalancer) :
      Reach c → Reach (DeleteLoadbalancer c lb)
  | syncR (F : List Nat) (e : Env) (c : Ctrl) (now : Nat) :
      Reach c → Reach (sync F e c now).2

lemma regInv_ctrlStore (c : Ctrl) (k : String) (v : Loadbalancer)
    (h : RegInv c) (hv : v.Outputs ≠ []) : RegInv (ctrlStore c k v) := by
  intro p hp
  rcases mem_astore c.loadbalancers k v p hp with heq | hmem
  · rw [heq]
    exact hv
  · exact h p hmem

lemma regInv_upsert (c : Ctrl) (lb : Loadbalancer) (now : Nat) (h : RegInv c) :
    RegInv (UpsertLoadbalancer c lb now) := by
  unfold UpsertLoadbalancer
  split
  · intro p hp
    exact h p (mem_filter_sub _ _ p hp)
  · rename_i hlen
    refine regInv_ctrlStore c lb.Key (lb.MarkUpdated now) h ?_
    simp only [Loadbalancer.MarkUpdated]
    intro hnil
    exact hlen (by simp [hnil])

lemma regInv_delete (c : Ctrl) (lb : Loadbalancer) (h : RegInv c) :
    RegInv (DeleteLoadbalancer c lb) := by
  intro p hp
  exact h p (mem_filter_sub _ _ p hp)

lemma regInv_refreshChainsLoop (F : List Nat) (now : Nat) (lbKey : String) :
    ∀ (chains : List ChainID) (lb : Loadbalancer) (e : Env) (c : Ctrl),
      RegInv c → lb.Outputs ≠ [] →
      RegInv (refreshChainsLoop F now lbKey chains lb e c).2
  | [], _, e, c, hc, _ => hc
  | chain :: rest, lb, e, c, hc, hlb => by
    rw [refreshChainsLoop]
    rcases h1 : iptList F .nat chain.encodeName e with ⟨r1, e1⟩
    cases r1 with
    | error err => exact regInv_refreshChainsLoop F now lbKey rest lb e1 c hc hlb
    | ok rules =>
      show RegInv ((if calculateHashForRules rules ≠ chain.ContentHash then
          refreshChainsLoop F now lbKey rest (lb.MarkUpdated now) e1
            (ctrlStore c lbKey (lb.MarkUpdated now))
        else refreshChainsLoop F now lbKey rest lb e1 c)).2
      by_cases hne : calculateHashForRules rules ≠ chain.ContentHash
      · rw [if_pos hne]
        have hlb1 : (lb.MarkUpdated now).Outputs ≠ [] := hlb
        exact regInv_refreshChainsLoop F now lbKey rest (lb.MarkUpdated now) e1
          (ctrlStore c lbKey (lb.MarkUpdated now))
          (regInv_ctrlStore c lbKey (lb.MarkUpdated now) hc hlb1) hlb1
      · rw [if_neg hne]
        exact regInv_refreshChainsLoop F now lbKey rest lb e1 c hc hlb

lemma ctrlLookup_mem (c : Ctrl) (k : String) (lb : Loadbalancer)
    (h : ctrlLookup c k = some lb) : ∃ k', (k', lb) ∈ c.loadbalancers := by
  simp only [ctrlLookup, alookup, Option.map_eq_some'] at h
  obtain ⟨p, hfind, hp2⟩ := h
  refine ⟨p.1, ?_⟩
  have hm := List.mem_of_find?_eq_some hfind
  rw [← hp2]
  exact hm

lemma regInv_refreshOuter (F : List Nat) (now : Nat) :
    ∀ (l : List (String × List ChainID)) (e : Env) (c : Ctrl),
      RegInv c → RegInv (refreshOuter F now l e c).2
  | [], e, c, hc => hc
  | (lbKey, chains) :: rest, e, c, hc => by
    rw [refreshOuter]
    cases hlk : ctrlLookup c lbKey with
    | none => exact regInv_refreshOuter F now rest e c hc
    | some lb =>
      obtain ⟨k', hmem⟩ := ctrlLookup_mem c lbKey lb hlk
      have hlb : lb.Outputs ≠ [] := hc (k', lb) hmem
      show RegInv ((match refreshChainsLoop F now lbKey chains lb e c with
        | (e1, c1) => refreshOuter F now rest e1 c1)).2
      rcases h2 : refreshChainsLoop F now lbKey chains lb e c with ⟨e1, c1⟩
      have hinv := regInv_refreshChainsLoop F now lbKey chains lb e c hc hlb
      rw [h2] at hinv
      exact regInv_refreshOuter F now rest e1 c1 hinv

/-- A task preserves the registry invariant. -/
def TaskKeepsInv (t : SyncTask) : Prop :=
  ∀ a b l e c, RegInv c → RegInv ((t a b l e c)).2

lemma keepsInv_of_snd_eq (t : SyncTask)
    (h : ∀ a b l e c, ((t a b l e c)).2 = c) : TaskKeepsInv t := by
  intro a b l e c hc
  rw [h]
  exact hc

lemma keepsInv_T1 (F : List Nat) : TaskKeepsInv (deleteChainsStuckInCreation F) :=
  keepsInv_of_snd_eq _ (fun _ _ _ _ _ => rfl)

lemma keepsInv_T2 (F : List Nat) (now : Nat) :
    TaskKeepsInv (refreshLoadbalancersWithBrokenChains F now) := by
  intro a b l e c hc
  exact regInv_refreshOuter F now l e c hc

lemma keepsInv_T3 (F : List Nat) : TaskKeepsInv (ensureForwardChainExists F) := by
  refine keepsInv_of_snd_eq _ ?_
  intro a b l e c
  simp only [ensureForwardChainExists]
  rcases h1 : iptListChains F .filter e with ⟨r1, e1⟩
  cases r1 with
  | error err => rfl
  | ok allChains =>
    show ((if allChains.contains forwardChainName then (e1, c)
      else ((iptNewChain F .filter forwardChainName e1).2, c))).2 = c
    split <;> rfl

lemma keepsInv_T4 (F : List Nat) : TaskKeepsInv (ensureForwardChainEntries F) := by
  refine keepsInv_of_snd_eq _ ?_
  intro a b l e c
  simp only [ensureForwardChainEntries]
  rcases h1 : iptList F .filter forwardChainName e with ⟨r1, e1⟩
  cases r1 <;> rfl

lemma keepsInv_T5 (F : List Nat) : TaskKeepsInv (ensureMainChainExists F) := by
  refine keepsInv_of_snd_eq _ ?_
  intro a b l e c
  simp only [ensureMainChainExists]
  split <;> rfl

lemma keepsInv_T6 (F : List Nat) : TaskKeepsInv (ensureChains F) :=
  keepsInv_of_snd_eq _ (fun _ _ _ _ _ => rfl)

lemma keepsInv_T7 (F : List Nat) : TaskKeepsInv (ensureMainChainEntries F) := by
  refine keepsInv_of_snd_eq _ ?_
  intro a b l e c
  simp only [ensureMainChainEntries]
  rcases h1 : iptList F .nat mainChainName e with ⟨r1, e1⟩
  cases r1 <;> rfl

lemma keepsInv_T8 (F : List Nat) : TaskKeepsInv (deleteObsoleteMainChainEntries F) := by
  refine keepsInv_of_snd_eq _ ?_
  intro a b l e c
  simp only [deleteObsoleteMainChainEntries]
  rcases h1 : iptList F .nat mainChainName e with ⟨r1, e1⟩
  cases r1 <;> rfl

lemma keepsInv_T9 (F : List Nat) : TaskKeepsInv (deleteObsoleteChains F) := by
  refine keepsInv_of_snd_eq _ ?_
  intro a b l e c
  simp only [deleteObsoleteChains]
  rcases h1 : iptList F .nat mainChainName e with ⟨r1, e1⟩
  cases r1 <;> rfl

lemma keepsInv_T10 (F : List Nat) : TaskKeepsInv (deleteObsoleteForwardChainEntries F) := by
  refine keepsInv_of_snd_eq _ ?_
  intro a b l e c
  simp only [deleteObsoleteForwardChainEntries]
  rcases h1 : iptList F .filter forwardChainName e with ⟨r1, e1⟩
  cases r1 with
  | error err => rfl
  | ok forwardRules =>
    show ((match gatherReferencedEndpoints F b [] e1 with
      | (.error _, e2) => (e2, c)
      | (.ok referenced, e2) => (dofceDeleteLoop F referenced forwardRules e2, c))).2 = c
    rcases h2 : gatherReferencedEndpoints F b [] e1 with ⟨r2, e2⟩
    cases r2 <;> rfl

lemma regInv_syncStep (F : List Nat) (acc : Env × Ctrl) (t : SyncTask)
    (ht : TaskKeepsInv t) (h : RegInv acc.2) : RegInv (syncStep F acc t).2 := by
  simp only [syncStep]
  rcases h1 : iptListChains F .nat acc.1 with ⟨r1, e1⟩
  cases r1 with
  | error err => exact h
  | ok allChains => exact ht _ _ _ _ _ h

lemma regInv_sync (F : List Nat) (e : Env) (c : Ctrl) (now : Nat) (h : RegInv c) :
    RegInv (sync F e c now).2 := by
  simp only [sync, syncTasks, List.foldl]
  exact regInv_syncStep F _ _ (keepsInv_T10 F)
    (regInv_syncStep F _ _ (keepsInv_T9 F)
      (regInv_syncStep F _ _ (keepsInv_T8 F)
        (regInv_syncStep F _ _ (keepsInv_T7 F)
          (regInv_syncStep F _ _ (keepsInv_T6 F)
            (regInv_syncStep F _ _ (keepsInv_T5 F)
              (regInv_syncStep F _ _ (keepsInv_T4 F)
                (regInv_syncStep F _ _ (keepsInv_T3 F)
                  (regInv_syncStep F _ _ (keepsInv_T2 F now)
                    (regInv_syncStep F _ _ (keepsInv_T1 F) h)))))))))

/-- C8: in every registry state reachable from the empty registry by any
sequence of `UpsertLoadbalancer`, `DeleteLoadbalancer` and `sync` operations,
every stored `Loadbalancer` record has a non-empty `Outputs` sequence. -/
theorem registry_reachable_outputs_nonempty (c : Ctrl) (h : Reach c) :
    ∀ p ∈ c.loadbalancers, p.2.Outputs ≠ [] := by
  have : RegInv c := by
    induction h with
    | empty => intro p hp; simp at hp
    | upsert c0 lb now _ ih => exact regInv_upsert c0 lb now ih
    | del c0 lb _ ih => exact regInv_delete c0 lb ih
    | syncR F e c0 now _ ih => exact regInv_sync F e c0 now ih
  exact this

def lbW8 : Loadbalancer := ⟨0, 1, ⟨some ⟨10, 1, 2, 3⟩, 443⟩, [⟨some ⟨10, 1, 2, 4⟩, 8443⟩]⟩

theorem registry_reachable_outputs_nonempty_witness :
    ((lbW8.Key, lbW8.MarkUpdated 77)).2.Outputs ≠ [] :=
  registry_reachable_outputs_nonempty (UpsertLoadbalancer ⟨[]⟩ lbW8 77)
    (Reach.upsert ⟨[]⟩ lbW8 77 Reach.empty) (lbW8.Key, lbW8.MarkUpdated 77) (by decide)

/-! ## C1: the sync pipeline (task order, fresh listings, failure skips) -/

/-- `e'` extends `e`'s trace without a nat-table `ListChains` operation. -/
def TraceExt (e e' : Env) : Prop :=
  ∃ l, e'.trace = e.trace ++ l ∧ Op.listChains Table.nat ∉ l

lemma traceExt_refl (e : Env) : TraceExt e e := ⟨[], by simp, by simp⟩

lemma traceExt_trans {a b c : Env} (h1 : TraceExt a b) (h2 : TraceExt b c) :
    TraceExt a c := by
  obtain ⟨l1, e1, n1⟩ := h1
  obtain ⟨l2, e2, n2⟩ := h2
  refine ⟨l1 ++ l2, ?_, ?_⟩
  · rw [e2, e1, List.append_assoc]
  · intro hm
    rcases List.mem_append.mp hm with h | h
    · exact n1 h
    · exact n2 h

lemma traceExt_count {e e' : Env} (h : TraceExt e e') :
    e'.trace.count (Op.listChains .nat) = e.trace.count (Op.listChains .nat) := by
  obtain ⟨l, hl, hn⟩ := h
  rw [hl, List.count_append, List.count_eq_zero.mpr hn]
  omega

lemma traceExt_single {e e' : Env} (o : Op) (ho : ¬ o = Op.listChains .nat)
    (h : e'.trace = e.trace ++ [o]) : TraceExt e e' :=
  ⟨[o], h, by simp only [List.mem_singleton]; exact fun hx => ho hx.symm⟩

lemma traceExt_call {e : Env} {α : Type} {p : α × Env} {r : α} {e' : Env}
    (h : p = (r, e')) (ht : TraceExt e p.2) : TraceExt e e' := by
  rw [h] at ht
  exact ht

lemma traceExt_ite (e : Env) (P : Prop) [Decidable P] (x y : Env)
    (hx : TraceExt e x) (hy : TraceExt e y) : TraceExt e (if P then x else y) := by
  split
  · exact hx
  · exact hy

lemma iptListChains_env (F : List Nat) (t : Table) (e : Env) :
    (iptListChains F t e).2 = e.emit (.listChains t) := by
  simp only [iptListChains]
  split_ifs <;> rfl

lemma traceExt_iptListChains_filter (F : List Nat) (e : Env) :
    TraceExt e (iptListChains F .filter e).2 := by
  refine traceExt_single (Op.listChains .filter) (by simp) ?_
  rw [iptListChains_env]
  rfl

lemma traceExt_iptList (F : List Nat) (t : Table) (c : String) (e : Env) :
    TraceExt e (iptList F t c e).2 := by
  refine traceExt_single (Op.listRules t c) (by simp) ?_
  rw [iptList_env]
  rfl

lemma iptNewChain_trace (F : List Nat) (t : Table) (c : String) (e : Env) :
    (iptNewChain F t c e).2.trace = e.trace ++ [Op.newChain t c] := by
  cases t <;> (simp only [iptNewChain]; split_ifs <;> rfl)

lemma traceExt_iptNewChain (F : List Nat) (t : Table) (c : String) (e : Env) :
    TraceExt e (iptNewChain F t c e).2 :=
  traceExt_single (Op.newChain t c) (by simp) (iptNewChain_trace F t c e)

lemma iptAppend_trace (F : List Nat) (t : Table) (c : String) (args : List String) (e : Env) :
    (iptAppend F t c args e).2.trace = e.trace ++ [Op.appendRule t c args] := by
  cases t <;>
    (simp only [iptAppend]
     split_ifs
     · rfl
     · split <;> rfl)

lemma traceExt_iptAppend (F : List Nat) (t : Table) (c : String) (args : List String)
    (e : Env) : TraceExt e (iptAppend F t c args e).2 :=
  traceExt_single (Op.appendRule t c args) (by simp) (iptAppend_trace F t c args e)

lemma iptDelete_trace (F : List Nat) (t : Table) (c : String) (args : List String) (e : Env) :
    (iptDelete F t c args e).2.trace = e.trace ++ [Op.deleteRule t c args] := by
  cases t <;>
    (simp only [iptDelete]
     split_ifs
     · rfl
     · split
       · rfl
       · split_ifs <;> rfl)

lemma traceExt_iptDelete (F : List Nat) (t : Table) (c : String) (args : List String)
    (e : Env) : TraceExt e (iptDelete F t c args e).2 :=
  traceExt_single (Op.deleteRule t c args) (by simp) (iptDelete_trace F t c args e)

lemma iptClearChain_trace (F : List Nat) (t : Table) (c : String) (e : Env) :
    (iptClearChain F t c e).2.trace = e.trace ++ [Op.clearChain t c] := by
  cases t <;> (simp only [iptClearChain]; split_ifs <;> rfl)

lemma traceExt_iptClearChain (F : List Nat) (t : Table) (c : String) (e : Env) :
    TraceExt e (iptClearChain F t c e).2 :=
  traceExt_single (Op.clearChain t c) (by simp) (iptClearChain_trace F t c e)

lemma iptDeleteChain_trace (F : List Nat) (t : Table) (c : String) (e : Env) :
    (iptDeleteChain F t c e).2.trace = e.trace ++ [Op.deleteChain t c] := by
  cases t <;>
    (simp only [iptDeleteChain]
     split_ifs
     · rfl
     · split
       · rfl
       · split_ifs <;> rfl)

lemma traceExt_iptDeleteChain (F : List Nat) (t : Table) (c : String) (e : Env) :
    TraceExt e (iptDeleteChain F t c e).2 :=
  traceExt_single (Op.deleteChain t c) (by simp) (iptDeleteChain_trace F t c e)

lemma iptRenameChain_trace (F : List Nat) (t : Table) (a b : String) (e : Env) :
    (iptRenameChain F t a b e).2.trace = e.trace ++ [Op.renameChain t a b] := by
  cases t <;> (simp only [iptRenameChain]; split_ifs <;> rfl)

lemma traceExt_iptRenameChain (F : List Nat) (t : Table) (a b : String) (e : Env) :
    TraceExt e (iptRenameChain F t a b e).2 :=
  traceExt_single (Op.renameChain t a b) (by simp) (iptRenameChain_trace F t a b e)

lemma traceExt_deleteChain (F : List Nat) (cid : ChainID) (e : Env) :
    TraceExt e (deleteChain F cid e).2 := by
  simp only [deleteChain]
  rcases h1 : iptClearChain F .nat cid.encodeName e with ⟨r1, e1⟩
  have t1 := traceExt_call h1 (traceExt_iptClearChain F .nat cid.encodeName e)
  cases r1 with
  | error err => exact t1
  | ok u =>
    rcases h2 : iptDeleteChain F .nat cid.encodeName e1 with ⟨r2, e2⟩
    have t2 := traceExt_call h2 (traceExt_iptDeleteChain F .nat cid.encodeName e1)
    simp only [h2]
    cases r2 <;> exact traceExt_trans t1 t2

lemma traceExt_dcsicLoop (F : List Nat) :
    ∀ (l : List ChainID) (e : Env), TraceExt e (dcsicLoop F l e)
  | [], e => traceExt_refl e
  | cid :: rest, e => by
    rw [dcsicLoop]
    split
    · exact traceExt_trans (traceExt_deleteChain F cid e)
        (traceExt_dcsicLoop F rest (deleteChain F cid e).2)
    · exact traceExt_dcsicLoop F rest e

lemma traceExt_refreshChainsLoop (F : List Nat) (now : Nat) (lbKey : String) :
    ∀ (chains : List ChainID) (lb : Loadbalancer) (e : Env) (c : Ctrl),
      TraceExt e (refreshChainsLoop F now lbKey chains lb e c).1
  | [], _, e, c => traceExt_refl e
  | chain :: rest, lb, e, c => by
    rw [refreshChainsLoop]
    rcases h1 : iptList F .nat chain.encodeName e with ⟨r1, e1⟩
    have t1 := traceExt_call h1 (traceExt_iptList F .nat chain.encodeName e)
    cases r1 with
    | error err => exact traceExt_trans t1 (traceExt_refreshChainsLoop F now lbKey rest lb e1 c)
    | ok rules =>
      show TraceExt e ((if calculateHashForRules rules ≠ chain.ContentHash then
          refreshChainsLoop F now lbKey rest (lb.MarkUpdated now) e1
            (ctrlStore c lbKey (lb.MarkUpdated now))
        else refreshChainsLoop F now lbKey rest lb e1 c)).1
      split
      · exact traceExt_trans t1 (traceExt_refreshChainsLoop F now lbKey rest _ e1 _)
      · exact traceExt_trans t1 (traceExt_refreshChainsLoop F now lbKey rest lb e1 c)

lemma traceExt_refreshOuter (F : List Nat) (now : Nat) :
    ∀ (l : List (String × List ChainID)) (e : Env) (c : Ctrl),
      TraceExt e (refreshOuter F now l e c).1
  | [], e, c => traceExt_refl e
  | (lbKey, chains) :: rest, e, c => by
    rw [refreshOuter]
    cases hlk : ctrlLookup c lbKey with
    | none => exact traceExt_refreshOuter F now rest e c
    | some lb =>
      show TraceExt e ((match refreshChainsLoop F now lbKey chains lb e c with
        | (e1, c1) => refreshOuter F now rest e1 c1)).1
      rcases h2 : refreshChainsLoop F now lbKey chains lb e c with ⟨e1, c1⟩
      have t2 : TraceExt e e1 := by
        have h := traceExt_refreshChainsLoop F now lbKey chains lb e c
        rw [h2] at h
        exact h
      exact traceExt_trans t2 (traceExt_refreshOuter F now rest e1 c1)

lemma traceExt_efceOutputsLoop (F : List Nat) (rules : List String) (prot : Nat) :
    ∀ (outs : List Endpoint) (e : Env), TraceExt e (efceOutputsLoop F rules prot outs e)
  | [], e => traceExt_refl e
  | output :: outs, e => by
    simp only [efceOutputsLoop]
    refine traceExt_trans (traceExt_trans
      (traceExt_ite e _ _ _
        (traceExt_iptAppend F .filter forwardChainName _ e) (traceExt_refl e))
      (traceExt_ite _ _ _ _
        (traceExt_iptAppend F .filter forwardChainName _ _) (traceExt_refl _)))
      (traceExt_efceOutputsLoop F rules prot outs _)

lemma traceExt_efceLBLoop (F : List Nat) (rules : List String) :
    ∀ (l : List (String × Loadbalancer)) (e : Env), TraceExt e (efceLBLoop F rules l e)
  | [], e => traceExt_refl e
  | (_, lb) :: rest, e =>
    traceExt_trans (traceExt_efceOutputsLoop F rules lb.Protocol lb.Outputs e)
      (traceExt_efceLBLoop F rules rest _)

lemma traceExt_fanoutLoop (F : List Nat) (lb : Loadbalancer) (cn : String) :
    ∀ (i : Nat) (e : Env), TraceExt e (fanoutLoop F lb cn i e).2
  | 0, e => traceExt_refl e
  | 1, e => traceExt_refl e
  | i + 2, e => by
    rw [fanoutLoop]
    rcases h1 : iptAppend F .nat cn (goSplitChar ' '
      ("-p " ++ protoString lb.Protocol ++ " -d " ++ optIPRender lb.Input.ip ++
       " --dport " ++ natRepr lb.Input.port ++ " -m statistic --mode nth --every " ++
       natRepr (i + 2) ++ " --packet 0 -j DNAT --to-destination " ++
       (lb.Outputs.getD (i + 1) default).render)) e with ⟨r1, e1⟩
    have t1 := traceExt_call h1 (traceExt_iptAppend F .nat cn _ e)
    cases r1 with
    | error err => exact t1
    | ok u => exact traceExt_trans t1 (traceExt_fanoutLoop F lb cn (i + 1) e1)

lemma traceExt_createChainForLB (F : List Nat) (lb : Loadbalancer) (e : Env) :
    TraceExt e (createChainForLB F lb e).2 := by
  simp only [createChainForLB]
  split_ifs
  · exact traceExt_refl e
  · rcases h1 : iptNewChain F .nat (lb.GetChainID ChainCreating 0).encodeName e with ⟨r1, e1⟩
    have t1 := traceExt_call h1 (traceExt_iptNewChain F .nat _ e)
    cases r1 with
    | error err => exact t1
    | ok u =>
      rcases h2 : fanoutLoop F lb (lb.GetChainID ChainCreating 0).encodeName
          lb.Outputs.length e1 with ⟨r2, e2⟩
      have t2 : TraceExt e1 e2 := by
        have h := traceExt_fanoutLoop F lb (lb.GetChainID ChainCreating 0).encodeName
          lb.Outputs.length e1
        rw [h2] at h
        exact h
      simp only [h2]
      cases r2 with
      | error err => exact traceExt_trans t1 t2
      | ok u2 =>
        rcases h3 : iptAppend F .nat (lb.GetChainID ChainCreating 0).encodeName
            (goSplitChar ' '
              ("-p " ++ protoString lb.Protocol ++ " -d " ++ optIPRender lb.Input.ip ++
               " --dport " ++ natRepr lb.Input.port ++ " -j DNAT --to-destination " ++
               (lb.Outputs.getD 0 default).render)) e2 with ⟨r3, e3⟩
        have t3 := traceExt_call h3 (traceExt_iptAppend F .nat _ _ e2)
        simp only [h3]
        cases r3 with
        | error err => exact traceExt_trans (traceExt_trans t1 t2) t3
        | ok u3 =>
          rcases h4 : iptList F .nat (lb.GetChainID ChainCreating 0).encodeName e3 with ⟨r4, e4⟩
          have t4 := traceExt_call h4 (traceExt_iptList F .nat _ e3)
          simp only [h4]
          cases r4 with
          | error err => exact traceExt_trans (traceExt_trans (traceExt_trans t1 t2) t3) t4
          | ok rules =>
            rcases h5 : iptRenameChain F .nat (lb.GetChainID ChainCreating 0).encodeName
                (lb.GetChainID ChainCreated (calculateHashForRules rules)).encodeName
                e4 with ⟨r5, e5⟩
            have t5 := traceExt_call h5 (traceExt_iptRenameChain F .nat _ _ e4)
            simp only [h5]
            cases r5 <;>
              exact traceExt_trans
                (traceExt_trans (traceExt_trans (traceExt_trans t1 t2) t3) t4) t5

lemma traceExt_ensureChainsLoop (F : List Nat) (c : Ctrl) :
    ∀ (l : List (String × List ChainID)) (e : Env), TraceExt e (ensureChainsLoop F c l e)
  | [], e => traceExt_refl e
  | (lbKey, chains) :: rest, e => by
    rw [ensureChainsLoop]
    cases ctrlLookup c lbKey with
    | none => exact traceExt_ensureChainsLoop F c rest e
    | some lb =>
      show TraceExt e (if _ ≠ "" then ensureChainsLoop F c rest e
        else ensureChainsLoop F c rest (createChainForLB F lb e).2)
      split
      · exact traceExt_ensureChainsLoop F c rest e
      · exact traceExt_trans (traceExt_createChainForLB F lb e)
          (traceExt_ensureChainsLoop F c rest _)

lemma traceExt_emceLoop (F : List Nat) (rules : List String) (c : Ctrl) :
    ∀ (l : List (String × List ChainID)) (e : Env), TraceExt e (emceLoop F rules c l e)
  | [], e => traceExt_refl e
  | (lbKey, chains) :: rest, e => by
    rw [emceLoop]
    cases ctrlLookup c lbKey with
    | none => exact traceExt_emceLoop F rules c rest e
    | some lb =>
      show TraceExt e (if _ = 0 then emceLoop F rules c rest e else _)
      split
      · exact traceExt_emceLoop F rules c rest e
      · show TraceExt e (if _ then emceLoop F rules c rest e
          else emceLoop F rules c rest (iptAppend F .nat mainChainName _ e).2)
        split
        · exact traceExt_emceLoop F rules c rest e
        · exact traceExt_trans (traceExt_iptAppend F .nat mainChainName _ e)
            (traceExt_emceLoop F rules c rest _)

lemma traceExt_removeMainChainEntryToChain (F : List Nat) (chain : ChainID) (e : Env) :
    TraceExt e (removeMainChainEntryToChain F chain e).2 := by
  simp only [removeMainChainEntryToChain]
  rcases h1 : iptDelete F .nat mainChainName
      (goSplitChar ' ' (getRuleStringForMainChainEntryToChain chain)) e with ⟨r1, e1⟩
  have t1 := traceExt_call h1 (traceExt_iptDelete F .nat mainChainName _ e)
  cases r1 <;> exact t1

lemma traceExt_domceDeleteAll (F : List Nat) :
    ∀ (l : List ChainID) (e : Env), TraceExt e (domceDeleteAll F l e)
  | [], e => traceExt_refl e
  | chain :: rest, e =>
    traceExt_trans (traceExt_removeMainChainEntryToChain F chain e)
      (traceExt_domceDeleteAll F rest _)

lemma traceExt_domceDeleteOutdated (F : List Nat) (newestName : String) :
    ∀ (l : List ChainID) (e : Env), TraceExt e (domceDeleteOutdated F newestName l e)
  | [], e => traceExt_refl e
  | chain :: rest, e => by
    rw [domceDeleteOutdated]
    split
    · exact traceExt_trans (traceExt_removeMainChainEntryToChain F chain e)
        (traceExt_domceDeleteOutdated F newestName rest _)
    · exact traceExt_domceDeleteOutdated F newestName rest e

lemma traceExt_domceLoop (F : List Nat) (c : Ctrl) :
    ∀ (l : List (String × List ChainID)) (e : Env), TraceExt e (domceLoop F c l e)
  | [], e => traceExt_refl e
  | (lbKey, chains) :: rest, e => by
    rw [domceLoop]
    split
    · exact traceExt_trans (traceExt_domceDeleteAll F chains e)
        (traceExt_domceLoop F c rest _)
    · split
      · exact traceExt_domceLoop F c rest e
      · exact traceExt_trans (traceExt_domceDeleteOutdated F _ chains e)
          (traceExt_domceLoop F c rest _)

lemma traceExt_docDeleteLoop (F : List Nat) (referenced : List ChainID) :
    ∀ (l : List ChainID) (e : Env), TraceExt e (docDeleteLoop F referenced l e)
  | [], e => traceExt_refl e
  | cid :: rest, e => by
    rw [docDeleteLoop]
    split
    · exact traceExt_trans (traceExt_deleteChain F cid e)
        (traceExt_docDeleteLoop F referenced rest _)
    · exact traceExt_docDeleteLoop F referenced rest e

lemma traceExt_gatherReferencedEndpoints (F : List Nat) :
    ∀ (l : List ChainID) (acc : List String) (e : Env),
      TraceExt e (gatherReferencedEndpoints F l acc e).2
  | [], acc, e => traceExt_refl e
  | cid :: rest, acc, e => by
    rw [gatherReferencedEndpoints]
    rcases h1 : iptList F .nat cid.encodeName e with ⟨r1, e1⟩
    have t1 := traceExt_call h1 (traceExt_iptList F .nat cid.encodeName e)
    cases r1 with
    | error err => exact t1
    | ok rulesInChain =>
      cases h2 : gatherChainEndpoints cid.encodeName rulesInChain acc with
      | error err => simp only [h2]; exact t1
      | ok acc1 =>
        simp only [h2]
        exact traceExt_trans t1 (traceExt_gatherReferencedEndpoints F rest acc1 e1)

lemma traceExt_dofceDeleteLoop (F : List Nat) (referenced : List String) :
    ∀ (l : List String) (e : Env), TraceExt e (dofceDeleteLoop F referenced l e)
  | [], e => traceExt_refl e
  | rule0 :: rest, e => by
    simp only [dofceDeleteLoop]
    split
    · exact traceExt_dofceDeleteLoop F referenced rest e
    · cases getDestinationFromForwardRule (stripNARules rule0) with
      | error err => exact traceExt_dofceDeleteLoop F referenced rest e
      | ok dest =>
        show TraceExt e (if _ then dofceDeleteLoop F referenced rest
            (iptDelete F .filter forwardChainName _ e).2
          else dofceDeleteLoop F referenced rest e)
        split
        · exact traceExt_trans (traceExt_iptDelete F .filter forwardChainName _ e)
            (traceExt_dofceDeleteLoop F referenced rest _)
        · exact traceExt_dofceDeleteLoop F referenced rest e

/-- A task only appends non-`ListChains(nat)` operations to the trace. -/
def TaskTraceExt (t : SyncTask) : Prop :=
  ∀ a b l e c, TraceExt e ((t a b l e c)).1

lemma taskExt_T1 (F : List Nat) : TaskTraceExt (deleteChainsStuckInCreation F) :=
  fun _ b _ e _ => traceExt_dcsicLoop F b e

lemma taskExt_T2 (F : List Nat) (now : Nat) :
    TaskTraceExt (refreshLoadbalancersWithBrokenChains F now) :=
  fun _ _ l e c => traceExt_refreshOuter F now l e c

lemma taskExt_T3 (F : List Nat) : TaskTraceExt (ensureForwardChainExists F) := by
  intro a b l e c
  simp only [ensureForwardChainExists]
  rcases h1 : iptListChains F .filter e with ⟨r1, e1⟩
  have t1 := traceExt_call h1 (traceExt_iptListChains_filter F e)
  cases r1 with
  | error err => exact t1
  | ok allChains =>
    show TraceExt e ((if _ then (e1, c)
      else ((iptNewChain F .filter forwardChainName e1).2, c))).1
    split
    · exact t1
    · exact traceExt_trans t1 (traceExt_iptNewChain F .filter forwardChainName e1)

lemma taskExt_T4 (F : List Nat) : TaskTraceExt (ensureForwardChainEntries F) := by
  intro a b l e c
  simp only [ensureForwardChainEntries]
  rcases h1 : iptList F .filter forwardChainName e with ⟨r1, e1⟩
  have t1 := traceExt_call h1 (traceExt_iptList F .filter forwardChainName e)
  cases r1 with
  | error err => exact t1
  | ok rules => exact traceExt_trans t1 (traceExt_efceLBLoop F rules c.loadbalancers e1)

lemma taskExt_T5 (F : List Nat) : TaskTraceExt (ensureMainChainExists F) := by
  intro a b l e c
  simp only [ensureMainChainExists]
  split
  · exact traceExt_refl e
  · exact traceExt_iptNewChain F .nat mainChainName e

lemma taskExt_T6 (F : List Nat) : TaskTraceExt (ensureChains F) :=
  fun _ _ l e c => traceExt_ensureChainsLoop F c l e

lemma taskExt_T7 (F : List Nat) : TaskTraceExt (ensureMainChainEntries F) := by
  intro a b l e c
  simp only [ensureMainChainEntries]
  rcases h1 : iptList F .nat mainChainName e with ⟨r1, e1⟩
  have t1 := traceExt_call h1 (traceExt_iptList F .nat mainChainName e)
  cases r1 with
  | error err => exact t1
  | ok rules => exact traceExt_trans t1 (traceExt_emceLoop F rules c l e1)

lemma taskExt_T8 (F : List Nat) : TaskTraceExt (deleteObsoleteMainChainEntries F) := by
  intro a b l e c
  simp only [deleteObsoleteMainChainEntries]
  rcases h1 : iptList F .nat mainChainName e with ⟨r1, e1⟩
  have t1 := traceExt_call h1 (traceExt_iptList F .nat mainChainName e)
  cases r1 with
  | error err => exact t1
  | ok rules => exact traceExt_trans t1 (traceExt_domceLoop F c (domceGather rules []) e1)

lemma taskExt_T9 (F : List Nat) : TaskTraceExt (deleteObsoleteChains F) := by
  intro a b l e c
  simp only [deleteObsoleteChains]
  rcases h1 : iptList F .nat mainChainName e with ⟨r1, e1⟩
  have t1 := traceExt_call h1 (traceExt_iptList F .nat mainChainName e)
  cases r1 with
  | error err => exact t1
  | ok rules => exact traceExt_trans t1 (traceExt_docDeleteLoop F (docGatherReferenced rules []) b e1)

lemma taskExt_T10 (F : List Nat) : TaskTraceExt (deleteObsoleteForwardChainEntries F) := by
  intro a b l e c
  simp only [deleteObsoleteForwardChainEntries]
  rcases h1 : iptList F .filter forwardChainName e with ⟨r1, e1⟩
  have t1 := traceExt_call h1 (traceExt_iptList F .filter forwardChainName e)
  cases r1 with
  | error err => exact t1
  | ok forwardRules =>
    rcases h2 : gatherReferencedEndpoints F b [] e1 with ⟨r2, e2⟩
    have t2 : TraceExt e1 e2 := by
      have h := traceExt_gatherReferencedEndpoints F b [] e1
      rw [h2] at h
      exact h
    simp only [h2]
    cases r2 with
    | error err => exact traceExt_trans t1 t2
    | ok referenced =>
      exact traceExt_trans (traceExt_trans t1 t2)
        (traceExt_dofceDeleteLoop F referenced forwardRules e2)

lemma syncStep_count (F : List Nat) (acc : Env × Ctrl) (t : SyncTask)
    (ht : TaskTraceExt t) :
    (syncStep F acc t).1.trace.count (Op.listChains .nat) =
      acc.1.trace.count (Op.listChains .nat) + 1 := by
  simp only [syncStep]
  rcases h1 : iptListChains F .nat acc.1 with ⟨r1, e1⟩
  have he1 : e1 = acc.1.emit (.listChains .nat) := by
    have h := iptListChains_env F .nat acc.1
    rw [h1] at h
    exact h
  have hc1 : e1.trace.count (Op.listChains .nat) =
      acc.1.trace.count (Op.listChains .nat) + 1 := by
    rw [he1]
    show (acc.1.trace ++ [Op.listChains .nat]).count (Op.listChains .nat) = _
    rw [List.count_append]
    simp
  cases r1 with
  | error err => exact hc1
  | ok allChains =>
    rw [traceExt_count (ht _ _ _ e1 acc.2)]
    exact hc1

/-- C1 (amended): under a failure-free driver `sync` IS the ten-task
reference pipeline (definitional equality: tasks T1..T10 run once each, in
order, on arguments derived from a fresh nat-table listing); and for EVERY
failure schedule, `sync` performs exactly ten nat-table `ListChains`
operations — one attempted fresh listing per task, whether or not the task
then runs. -/
theorem sync_ten_tasks_in_order (F : List Nat) (e : Env) (c : Ctrl) (now : Nat) :
    sync [] e c now = syncTenTasksSpec [] e c now ∧
    (sync F e c now).1.trace.count (Op.listChains .nat) =
      e.trace.count (Op.listChains .nat) + 10 := by
  refine ⟨rfl, ?_⟩
  simp only [sync, syncTasks, List.foldl]
  rw [syncStep_count F _ _ (taskExt_T10 F), syncStep_count F _ _ (taskExt_T9 F),
    syncStep_count F _ _ (taskExt_T8 F), syncStep_count F _ _ (taskExt_T7 F),
    syncStep_count F _ _ (taskExt_T6 F), syncStep_count F _ _ (taskExt_T5 F),
    syncStep_count F _ _ (taskExt_T4 F), syncStep_count F _ _ (taskExt_T3 F),
    syncStep_count F _ _ (taskExt_T2 F now), syncStep_count F _ _ (taskExt_T1 F)]

/-- A nat table holding one chain stuck in the Creating state (protocol udp,
192.168.42.69:1337, lastUpdate 12345, contentHash 0). -/
def e0W1 : Env := ⟨[("LB$-7wLAqCpFBTkAADA5AAAAAAA=", [])], [], 0, []⟩

theorem e0W1_stuck_chain_parses :
    TryParseChainID "LB$-7wLAqCpFBTkAADA5AAAAAAA=" =
      .ok ⟨239, 2, ⟨192, 168, 42, 69⟩, 1337, 12345, ChainCreating, 0⟩ := by decide

set_option maxHeartbeats 3000000 in
theorem sync_skips_task_on_listing_failure_cex :
    sync [0] e0W1 ⟨[]⟩ 0 ≠ syncTenTasksSpec [0] e0W1 ⟨[]⟩ 0 := by decide
